import Mathlib

set_option maxRecDepth 100000

/-!
Verification of the query-understanding-to-SQL pipeline of the
financial-rag-graph repository, as a shallow embedding in Lean 4.

Python strings are modelled as Lean `String` (lists of characters); machine
floats that only carry data (amounts, similarity scores) are modelled as `ℚ`;
`datetime` values, which the source only ever shifts by whole days and
formats as dates, are modelled as integer day numbers (days since 1970-01-01)
with explicit civil-calendar conversions; Python exceptions are modelled as
`Except String` with the exception's message.
-/

namespace StrUtil

/-- ASCII lowercasing of one character, mirroring `str.lower()` on the ASCII
range (all strings inspected by this code base are ASCII). -/
def asciiLower (c : Char) : Char :=
  if 'A' ≤ c ∧ c ≤ 'Z' then Char.ofNat (c.toNat + 32) else c

/-- Lowercase every character of a string (`str.lower()`). -/
def lowerStr (s : String) : String := ⟨s.data.map asciiLower⟩

/-- Python word character for `re` purposes: `[a-zA-Z0-9_]`. -/
def isWordChar (c : Char) : Bool := c.isAlphanum || c = '_'

/-- Python whitespace as used by `str.strip()` (ASCII range):
space, tab, newline, carriage return, vertical tab, form feed. -/
def isPySpace (c : Char) : Bool :=
  c = ' ' || c = '\t' || c = '\n' || c = '\r' ||
  c = Char.ofNat 11 || c = Char.ofNat 12

/-- Model of `str.strip()`: drop leading and trailing whitespace. -/
def pyStrip (s : List Char) : List Char :=
  ((s.dropWhile isPySpace).reverse.dropWhile isPySpace).reverse

/-- Substring containment, `needle in hay` on Python strings. -/
def subList (needle : List Char) : List Char → Bool
  | [] => needle.isEmpty
  | c :: cs => needle.isPrefixOf (c :: cs) || subList needle cs

/-- Model of `needle in hay` for strings. -/
def containsSub (hay needle : String) : Bool := subList needle.data hay.data

/-- Scan from the left for the first occurrence of `delim`; if found, return
the suffix after it (used to model lazy regex matches up to a terminator). -/
def dropAfterFirst (delim : List Char) : List Char → Option (List Char)
  | [] => none
  | c :: cs =>
    if delim.isPrefixOf (c :: cs) then some ((c :: cs).drop delim.length)
    else dropAfterFirst delim cs

/-- One whole-word occurrence test at the head of `s`: `w` is a prefix of `s`,
the previous character (if any) is not a word character, and the character
following the match (if any) is not a word character. -/
def wordAtHead (w : List Char) (prev : Option Char) (s : List Char) : Bool :=
  w.isPrefixOf s &&
  (match prev with | none => true | some p => !isWordChar p) &&
  (match (s.drop w.length).head? with | none => true | some n => !isWordChar n)

/-- Helper scan for `containsWord`, remembering the previous character. -/
def containsWordAux (w : List Char) (prev : Option Char) : List Char → Bool
  | [] => false
  | c :: cs => wordAtHead w prev (c :: cs) || containsWordAux w (some c) cs

/-- Whole-word containment: Python `re.search(rf'\b(w)\b', s)` for a purely
alphabetic word `w`. -/
def containsWord (w : String) (s : String) : Bool :=
  containsWordAux w.data none s.data

/-- Join a list of strings with a separator: `sep.join(parts)`. -/
def joinSep (sep : String) : List String → String
  | [] => ""
  | [s] => s
  | s :: rest => s ++ sep ++ joinSep sep rest

/-- Replace every occurrence of a (nonempty) pattern, scanning left to right:
`s.replace(pat, rep)`.  Fuel-driven; the fuel is the length of the input. -/
def replaceAllAux (pat rep : List Char) : Nat → List Char → List Char
  | 0, s => s
  | _ + 1, [] => []
  | fuel + 1, c :: cs =>
    if pat.isPrefixOf (c :: cs) then
      rep ++ replaceAllAux pat rep fuel ((c :: cs).drop pat.length)
    else
      c :: replaceAllAux pat rep fuel cs

/-- Model of `s.replace(pat, rep)` for nonempty `pat`. -/
def replaceAll (s pat rep : String) : String :=
  ⟨replaceAllAux pat.data rep.data s.data.length s.data⟩

/-- The decimal digit character of `n % 10`. -/
def digitChar (n : Nat) : Char := Char.ofNat (48 + n % 10)

/-- Decimal digits of `n`, most significant first (fuel-driven). -/
def natDigitsAux : Nat → Nat → List Char
  | 0, _ => []
  | fuel + 1, n =>
    if n < 10 then [digitChar n]
    else natDigitsAux fuel (n / 10) ++ [digitChar n]

/-- Python `str(n)` for a natural number. -/
def natRepr (n : Nat) : String := ⟨natDigitsAux (n + 1) n⟩

/-- Python `str(i)` for an integer. -/
def intRepr (i : Int) : String :=
  if i < 0 then "-" ++ natRepr i.natAbs else natRepr i.natAbs

/-- Left-pad the decimal rendering of `n` with zeros to the given width
(`%02d`, `%04d`). -/
def padNat (width n : Nat) : String :=
  let ds := natDigitsAux (n + 1) n
  ⟨List.replicate (width - ds.length) '0' ++ ds⟩

/-- The single-quote character, for embedding quoted SQL literals and Python
error messages. -/
def sq : String := ⟨[Char.ofNat 39]⟩

end StrUtil

namespace SQLiteTool

open StrUtil

/-- Strip SQL comments the way `re.sub(r'--.*?\n|/\*.*?\*/', '', q, flags=DOTALL)`
does: scanning left to right, a `--` with a later newline is removed up to and
including the first newline, and a `/*` with a later `*/` is removed up to and
including the first `*/`; unterminated comment openers are left in place.
Fuel-driven; the fuel is the length of the input. -/
def stripCommentsAux : Nat → List Char → List Char
  | 0, s => s
  | _ + 1, [] => []
  | fuel + 1, c :: cs =>
    if c = '-' && cs.head? = some '-' then
      match dropAfterFirst ['\n'] cs.tail with
      | some rest => stripCommentsAux fuel rest
      | none => c :: stripCommentsAux fuel cs
    else if c = '/' && cs.head? = some '*' then
      match dropAfterFirst ['*', '/'] cs.tail with
      | some rest => stripCommentsAux fuel rest
      | none => c :: stripCommentsAux fuel cs
    else
      c :: stripCommentsAux fuel cs

/-- Comment stripping on strings, from `SQLiteTool._is_safe_query`. -/
def stripComments (q : String) : String :=
  ⟨stripCommentsAux q.data.length q.data⟩

/-- The blocked operations list of `SQLiteTool._is_safe_query`. -/
def blockedOperations : List String :=
  ["drop", "alter", "delete", "insert", "update", "replace",
   "create", "attach", "detach", "vacuum", "pragma", "reindex"]

/-- Model of `SQLiteTool._is_safe_query`: strip comments, lowercase, reject whole-word
blocked operations, and require the stripped, trimmed text to start with
`select`. -/
def isSafeQuery (query : String) : Bool :=
  let q := lowerStr (stripComments query)
  (!blockedOperations.any (fun op => containsWord op q)) &&
  "select".data.isPrefixOf (pyStrip q.data)

/-- Scalar parameter values bound into a query (strings and numbers). -/
inductive PVal where
  | pstr : String → PVal
  | pnum : ℚ → PVal
deriving DecidableEq, Repr

/-- A database cell value as returned by the storage engine. -/
inductive CVal where
  | cnull : CVal
  | cnum : ℚ → CVal
  | cstr : String → CVal
deriving DecidableEq, Repr

/-- One result row: the column-name-to-value mapping of a row dict, in
column order. -/
abbrev Row := List (String × CVal)

/-- The `(rows, column_names)` pair returned by `SQLiteTool.execute`. -/
structure ExecResult where
  rows : List Row
  columns : List String
deriving DecidableEq, Repr

/-- Model of `SQLiteTool.execute`: the safety check runs first and rejects unsafe
queries with `ValueError("Query contains unsafe operations")` before anything
reaches the storage engine; the storage engine itself is the abstract
parameter `dbExec`, and its `sqlite3.Error` failures are re-raised as
`ValueError("Database error: ...")`. -/
def execute (dbExec : String → List (String × PVal) → Except String ExecResult)
    (query : String) (params : List (String × PVal)) : Except String ExecResult :=
  if !isSafeQuery query then
    Except.error "Query contains unsafe operations"
  else
    match dbExec query params with
    | Except.ok r => Except.ok r
    | Except.error e => Except.error ("Database error: " ++ e)

end SQLiteTool

namespace Dates

open StrUtil

/-- Day number of a civil date (days since 1970-01-01), the standard
days-from-civil algorithm with floor division.  `datetime` values in the
pipeline are midnight-normalized and only ever shifted by whole days, so a
day number captures them exactly. -/
def daysFromCivil (y m d : Int) : Int :=
  let yAdj : Int := if m ≤ 2 then y - 1 else y
  let era : Int := yAdj.fdiv 400
  let yoe : Int := yAdj - era * 400
  let mp : Int := (m + 9).emod 12
  let doy : Int := (153 * mp + 2).fdiv 5 + d - 1
  let doe : Int := yoe * 365 + yoe.fdiv 4 - yoe.fdiv 100 + doy
  era * 146097 + doe - 719468

/-- Civil date `(year, month, day)` of a day number: inverse of
`daysFromCivil` (civil-from-days algorithm). -/
def civilFromDays (z : Int) : Int × Int × Int :=
  let z2 : Int := z + 719468
  let era : Int := z2.fdiv 146097
  let doe : Int := z2 - era * 146097
  let yoe : Int := (doe - doe.fdiv 1460 + doe.fdiv 36524 - doe.fdiv 146096).fdiv 365
  let y : Int := yoe + era * 400
  let doy : Int := doe - (365 * yoe + yoe.fdiv 4 - yoe.fdiv 100)
  let mp : Int := (5 * doy + 2).fdiv 153
  let d : Int := doy - (153 * mp + 2).fdiv 5 + 1
  let m : Int := mp + (if mp < 10 then 3 else -9)
  (if m ≤ 2 then y + 1 else y, m, d)

/-- Model of `dt.strftime("%Y-%m-%d")` on a day number (years in the data are CE,
four digits). -/
def dayToDateStr (z : Int) : String :=
  let c := civilFromDays z
  padNat 4 c.1.natAbs ++ "-" ++ padNat 2 c.2.1.natAbs ++ "-" ++ padNat 2 c.2.2.natAbs

/-- Day number of the first day of the month containing `z`
(`dt.replace(day=1)`). -/
def firstOfMonth (z : Int) : Int :=
  let c := civilFromDays z
  daysFromCivil c.1 c.2.1 1

end Dates

namespace IntentModel

open StrUtil Dates

/-- The `IntentType` enum of `intent_parser.py` (a `str`-valued enum whose
values coincide with `SQLTemplateType` in `sql_planner.py` for the four
shared members). -/
inductive IntentType where
  | spendingByCategory
  | spendingOverTime
  | topItems
  | comparison
  | breakdown
deriving DecidableEq, Repr

/-- The `TimeGranularity` enum of `intent_parser.py`. -/
inductive Gran where
  | day
  | week
  | month
  | quarter
  | year
deriving DecidableEq, Repr

/-- The `ParsedIntent` TypedDict.  All keys are present (as produced by
`parse_intent`); Python `None` values are `none`.  Datetimes are day
numbers; `filters` is split into its three recognised keys, each `none`
when the key is absent from the filters dict. -/
structure ParsedIntent where
  intentType : Option IntentType
  timeRange : Option Int × Option Int
  timeGranularity : Option Gran
  dimensions : List String
  metrics : List String
  filtersCategory : Option (List String)
  filtersMin : Option ℚ
  filtersMax : Option ℚ
  limit : Option Int
  isComparison : Bool
  comparisonPeriod : Option (Option Int × Option Int)
deriving DecidableEq, Repr

/-- The behaviour of an empty intent dict `{}` under the `.get` accesses the
downstream nodes perform (every lookup misses). -/
def emptyIntent : ParsedIntent :=
  ⟨none, (none, none), none, [], [], none, none, none, none, false, none⟩

/-- Model of `re.search(r'top\s+(\d+)', query)`: scan for the first position where
the literal `top` is followed by at least one whitespace character and then
at least one digit; return the digits' value.  Mirrors the regex (which does
not require a word boundary before `top`). -/
def findTopN : List Char → Option Nat
  | [] => none
  | c :: cs =>
    let here : Option Nat :=
      if ['t', 'o', 'p'].isPrefixOf (c :: cs) then
        let afterTop := (c :: cs).drop 3
        let ws := afterTop.takeWhile (fun ch => isPySpace ch)
        let digits := (afterTop.dropWhile (fun ch => isPySpace ch)).takeWhile Char.isDigit
        if ws.isEmpty || digits.isEmpty then none
        else some (digits.foldl (fun acc ch => acc * 10 + (ch.toNat - 48)) 0)
      else none
    match here with
    | some n => some n
    | none => findTopN cs

/-- Model of `_extract_time_range(query)` with the process clock passed explicitly as
the day number `today` (the code calls `datetime.now()` internally and
normalizes to midnight). -/
def extractTimeRange (today : Int) (query : String) : Option Int × Option Int :=
  if containsSub query "last month" then
    let lastPrev := firstOfMonth today - 1
    (some (firstOfMonth lastPrev), some lastPrev)
  else if containsSub query "this month" then
    (some (firstOfMonth today), some today)
  else if containsSub query "last 30 days" || containsSub query "past month" then
    (some (today - 30), some today)
  else if containsSub query "last 7 days" || containsSub query "past week" then
    (some (today - 7), some today)
  else if containsSub query "yesterday" then
    (some (today - 1), some (today - 1))
  else
    (some (today - 30), some today)

/-- Model of `_extract_time_granularity(query)`. -/
def extractTimeGranularity (query : String) : Option Gran :=
  if [ "daily", "day by day", "each day" ].any (containsSub query) then
    some Gran.day
  else if [ "weekly", "week by week", "each week" ].any (containsSub query) then
    some Gran.week
  else if [ "monthly", "month by month", "each month" ].any (containsSub query) then
    some Gran.month
  else if [ "quarterly", "quarter by quarter" ].any (containsSub query) then
    some Gran.quarter
  else if [ "yearly", "annually", "year by year" ].any (containsSub query) then
    some Gran.year
  else
    none

/-- Model of `_extract_comparison_period(query, current_range)`: the prior window of
the same length ending at the current start.  (The `query` argument of the
source is unused; `datetime` values are always truthy, so the two guards
both reduce to a `None` check on the bounds.) -/
def extractComparisonPeriod : Option Int × Option Int → Option (Int × Int)
  | (some s, some e) => some (s - (e - s), s)
  | _ => none

/-- Model of `parse_intent(query)` with the process clock passed explicitly as
`today`.  The query is lowercased once and all detection passes run on the
lowercased text, exactly as in the source. -/
def parseIntent (today : Int) (query : String) : ParsedIntent :=
  let q := lowerStr query
  let base : ParsedIntent :=
    ⟨some IntentType.spendingOverTime, (none, none), none, [], ["amount"],
     none, none, none, none, false, none⟩
  let afterType : ParsedIntent :=
    if [ "by category", "per category", "categories" ].any (containsSub q) then
      { base with intentType := some IntentType.spendingByCategory,
                  dimensions := base.dimensions ++ ["category"] }
    else if [ "top ", "highest ", "most expensive" ].any (containsSub q) then
      { base with intentType := some IntentType.topItems,
                  limit := some (Int.ofNat ((findTopN q.data).getD 10)) }
    else if [ "compare", "vs", "versus" ].any (containsSub q) then
      { base with intentType := some IntentType.comparison, isComparison := true }
    else base
  let afterTime := { afterType with timeRange := extractTimeRange today q }
  let afterGran := { afterTime with timeGranularity := extractTimeGranularity q }
  let afterDims :=
    if containsSub q "by" then
      let d1 :=
        if containsSub q "category" || [ "categories", "type" ].any (containsSub q) then
          afterGran.dimensions ++ ["category"]
        else afterGran.dimensions
      let d2 :=
        if containsSub q "merchant" || containsSub q "store" then
          d1 ++ ["merchant"]
        else d1
      { afterGran with dimensions := d2 }
    else afterGran
  if afterDims.isComparison then
    { afterDims with
      comparisonPeriod := (extractComparisonPeriod afterDims.timeRange).map
        (fun p => (some p.1, some p.2)) }
  else
    { afterDims with comparisonPeriod := none }

end IntentModel

namespace SQLPlannerM

open StrUtil Dates IntentModel SQLiteTool

/-- Model of `SQLPlanner._get_time_expression(granularity)`; the `None` granularity
(key present with value `None` in the intent dict) falls through to the
month default, as in the source's final `else`. -/
def getTimeExpression : Option Gran → String
  | some Gran.day => "date"
  | some Gran.week => "date(date, " ++ sq ++ "weekday 0" ++ sq ++ ", " ++ sq ++ "-6 days" ++ sq ++ ")"
  | some Gran.month => "strftime(" ++ sq ++ "%Y-%m" ++ sq ++ ", date)"
  | some Gran.quarter =>
      "strftime(" ++ sq ++ "%Y" ++ sq ++ ", date) || " ++ sq ++ "-Q" ++ sq ++
      " || ((strftime(" ++ sq ++ "%m" ++ sq ++ ", date) + 2) / 3)"
  | some Gran.year => "strftime(" ++ sq ++ "%Y" ++ sq ++ ", date)"
  | none => "strftime(" ++ sq ++ "%Y-%m" ++ sq ++ ", date)"

/-- The IN-list placeholder text for `n` categories:
`", ".join(f":category_{i}" for i in range(n))`. -/
def categoryPlaceholders (n : Nat) : String :=
  joinSep ", " ((List.range n).map (fun k => ":category_" ++ natRepr k))

/-- The condition/parameter pairs accumulated by
`SQLPlanner._build_where_clause(intent)`, in the source's order: time lower
bound, time upper bound, category IN-list, min amount, max amount.  Each
present filter contributes one condition string and its named parameters. -/
def whereChunks (i : ParsedIntent) : List (String × List (String × PVal)) :=
  (match i.timeRange.1 with
   | some d => [("date >= :time_start", [("time_start", PVal.pstr (dayToDateStr d))])]
   | none => []) ++
  (match i.timeRange.2 with
   | some d => [("date <= :time_end", [("time_end", PVal.pstr (dayToDateStr d))])]
   | none => []) ++
  (match i.filtersCategory with
   | some cats =>
     if cats.isEmpty then []
     else
       [("category IN (" ++ categoryPlaceholders cats.length ++ ")",
         cats.enum.map (fun kc => ("category_" ++ natRepr kc.1, PVal.pstr kc.2)))]
   | none => []) ++
  (match i.filtersMin with
   | some v => [("amount >= :min_amount", [("min_amount", PVal.pnum v)])]
   | none => []) ++
  (match i.filtersMax with
   | some v => [("amount <= :max_amount", [("max_amount", PVal.pnum v)])]
   | none => [])

/-- Model of `SQLPlanner._build_where_clause(intent)`: the conjunction of the present
filters, each literal value bound through a named parameter.  Returns the
clause text and the parameter assoc list in insertion order (Python dicts
preserve insertion order). -/
def buildWhereClause (i : ParsedIntent) : String × List (String × PVal) :=
  let chunks := whereChunks i
  (if chunks.isEmpty then "" else "WHERE " ++ joinSep " AND " (chunks.map Prod.fst),
   (chunks.map Prod.snd).flatten)

/-- Model of `SQLPlanner._plan_spending_over_time`: the SPENDING_OVER_TIME template
with its placeholders filled (the template's exact whitespace is
reproduced). -/
def planSpendingOverTime (table : String) (i : ParsedIntent) :
    String × List (String × PVal) :=
  let wc := buildWhereClause i
  ("\n                SELECT \n                    " ++
     getTimeExpression i.timeGranularity ++
     " AS time_period,\n                    SUM(amount) as total_amount\n                FROM " ++
     table ++ "\n                " ++ wc.1 ++
     "\n                GROUP BY time_period\n                ORDER BY time_period\n            ",
   wc.2)

/-- Model of `SQLPlanner._plan_spending_by_category`.  The intent dict produced by
`parse_intent` always carries the `limit` key, so the source's
`if 'limit' in intent` test is always true and the clause renders the
value (`LIMIT None` when the value is Python `None`). -/
def planSpendingByCategory (table : String) (i : ParsedIntent) :
    String × List (String × PVal) :=
  let wc := buildWhereClause i
  let limitClause := "LIMIT " ++ (match i.limit with | some n => intRepr n | none => "None")
  ("\n                SELECT \n                    category,\n                    SUM(amount) as total_amount\n                FROM " ++
     table ++ "\n                " ++ wc.1 ++
     "\n                GROUP BY category\n                ORDER BY total_amount DESC\n                " ++
     limitClause ++ "\n            ",
   wc.2)

/-- Model of `SQLPlanner._plan_top_items`.  `intent.get("dimensions", ["merchant"])`
returns the present (possibly empty) list, so an empty `dimensions` list
makes the `[0]` subscript raise `IndexError("list index out of range")`. -/
def planTopItems (table : String) (i : ParsedIntent) :
    Except String (String × List (String × PVal)) :=
  match i.dimensions with
  | [] => Except.error "list index out of range"
  | dim :: _ =>
    let wc := buildWhereClause i
    let limitStr := match i.limit with | some n => intRepr n | none => "None"
    Except.ok
      ("\n                SELECT \n                    " ++ dim ++
         ",\n                    SUM(amount) as total_amount\n                FROM " ++
         table ++ "\n                " ++ wc.1 ++
         "\n                GROUP BY " ++ dim ++
         "\n                ORDER BY total_amount DESC\n                LIMIT " ++
         limitStr ++ "\n            ",
       wc.2)

/-- Model of `SQLPlanner._plan_comparison`.  Unpacking a `None` comparison period
raises `TypeError`; a `None` bound (datetimes are always truthy) raises
`ValueError("Invalid time range for comparison")`.  The previous-period
parameters are renamed with the `prev_` prefix, but the previous WHERE
clause text is reused verbatim (only its `WHERE ` prefix stripped), so its
placeholders keep their unprefixed names. -/
def planComparison (table : String) (i : ParsedIntent) :
    Except String (String × List (String × PVal)) :=
  match i.comparisonPeriod with
  | none => Except.error "cannot unpack non-iterable NoneType object"
  | some (ps, pe) =>
    if i.timeRange.1.isNone || i.timeRange.2.isNone || ps.isNone || pe.isNone then
      Except.error "Invalid time range for comparison"
    else
      let cur := buildWhereClause i
      let prev := buildWhereClause { i with timeRange := (ps, pe) }
      let prevParams := prev.2.map (fun kv => ("prev_" ++ kv.1, kv.2))
      let exprs : String × String :=
        if i.intentType = some IntentType.spendingByCategory then
          ("category, SUM(amount) as total_amount", "GROUP BY category")
        else
          (getTimeExpression i.timeGranularity ++ " AS time_period, SUM(amount) as total_amount",
           "GROUP BY time_period")
      let sql :=
        "\n                WITH current_period AS (\n                    SELECT \n                        " ++
        exprs.1 ++ " as current_value\n                    FROM " ++ table ++
        "\n                    " ++ replaceAll cur.1 "WHERE " "" ++
        "\n                    " ++ exprs.2 ++
        "\n                ),\n                previous_period AS (\n                    SELECT \n                        " ++
        exprs.1 ++ " as previous_value\n                    FROM " ++ table ++
        "\n                    " ++ replaceAll prev.1 "WHERE " "" ++
        "\n                    " ++ exprs.2 ++
        "\n                )\n                SELECT \n                    current_period.*,\n                    previous_period.previous_value,\n                    (current_period.current_value - previous_period.previous_value) as difference,\n                    (current_period.current_value / NULLIF(previous_period.previous_value, 0) - 1) * 100 as pct_change\n                FROM current_period\n                LEFT JOIN previous_period ON 1=1\n            "
      Except.ok (sql, cur.2 ++ prevParams)

/-- Model of `SQLPlanner.plan_sql(intent)`: template dispatch on `intent_type` (string
equality against the three explicit template types, then the
`is_comparison` flag, then the spending-over-time default). -/
def planSQL (table : String) (i : ParsedIntent) :
    Except String (String × List (String × PVal)) :=
  if i.intentType = some IntentType.spendingOverTime then
    Except.ok (planSpendingOverTime table i)
  else if i.intentType = some IntentType.spendingByCategory then
    Except.ok (planSpendingByCategory table i)
  else if i.intentType = some IntentType.topItems then
    planTopItems table i
  else if i.isComparison then
    planComparison table i
  else
    Except.ok (planSpendingOverTime table i)

/-- Model of `generate_sql_plan(intent)`: the pipeline entry point, planning against
the `expenses` table. -/
def generateSqlPlan (i : ParsedIntent) :
    Except String (String × List (String × PVal)) :=
  planSQL "expenses" i

/-- Two successive compilations of the same intent.  The source planner
reads no ambient state (no clock, no randomness, no mutable globals; dict
iteration order is insertion order), so its embedding is a pure function
of the intent. -/
def compileTwice (i : ParsedIntent) :
    Except String (String × List (String × PVal)) ×
    Except String (String × List (String × PVal)) :=
  (generateSqlPlan i, generateSqlPlan i)

/-- Two intents of the same shape: they agree on everything except the
user-supplied filter values (time bound values, category strings, min/max
amounts), of which only presence and multiplicity agree.  The compiled
query text may depend on the shape but must not depend on those values. -/
def SameShape (i j : ParsedIntent) : Prop :=
  i.intentType = j.intentType ∧
  i.timeGranularity = j.timeGranularity ∧
  i.dimensions = j.dimensions ∧
  i.limit = j.limit ∧
  i.isComparison = j.isComparison ∧
  i.timeRange.1.isSome = j.timeRange.1.isSome ∧
  i.timeRange.2.isSome = j.timeRange.2.isSome ∧
  i.filtersCategory.map List.length = j.filtersCategory.map List.length ∧
  i.filtersMin.isSome = j.filtersMin.isSome ∧
  i.filtersMax.isSome = j.filtersMax.isSome ∧
  i.comparisonPeriod.map (fun p => (p.1.isSome, p.2.isSome)) =
    j.comparisonPeriod.map (fun p => (p.1.isSome, p.2.isSome))

end SQLPlannerM

namespace Placeholders

open StrUtil

/-- Extract the named placeholders of an SQL text: every maximal run of word
characters immediately following a colon (the binding syntax `sqlite3` uses
for named parameters).  Fuel-driven so the kernel can evaluate it; the fuel
is the length of the input, which suffices since each step consumes at
least one character. -/
def extractAux : Nat → List Char → List String
  | 0, _ => []
  | _ + 1, [] => []
  | fuel + 1, c :: cs =>
    if c = ':' then
      let nm := cs.takeWhile isWordChar
      if nm.isEmpty then extractAux fuel cs
      else ⟨nm⟩ :: extractAux fuel (cs.dropWhile isWordChar)
    else extractAux fuel cs

/-- Named placeholders of a character list. -/
def extractL (s : List Char) : List String := extractAux s.length s

/-- Named placeholders of a query string. -/
def extractPlaceholders (s : String) : List String := extractL s.data

/-- A continuation that cannot extend a placeholder name: its first
character, if any, is not a word character. -/
def GoodFollow (r : List Char) : Prop :=
  ∀ c, r.head? = some c → isWordChar c = false

/-- A text chunk whose placeholder extraction is `names`, stably under any
continuation that cannot extend its final name. -/
def CondOk (txt : String) (names : List String) : Prop :=
  ∀ r : List Char, GoodFollow r → extractL (txt.data ++ r) = names ++ extractL r

end Placeholders

namespace ChartNode

open StrUtil IntentModel SQLiteTool

/-- The `ChartSpec` dataclass of `chart_node.py`. -/
structure ChartSpec where
  chartType : String
  xAxis : String
  yAxis : String
  title : String
  xTitle : String
  yTitle : String
  colorTheme : String
  width : Nat
  height : Nat
deriving DecidableEq, Repr

/-- Model of `row.get(col)`: a missing key and a stored SQL `NULL` both surface as
Python `None`, modelled as `cnull`. -/
def pyGet (r : Row) (col : String) : CVal :=
  match r.lookup col with
  | some v => v
  | none => CVal.cnull

/-- Whether a cell value is a Python `int`/`float` (`isinstance` test). -/
def isNumCell : CVal → Bool
  | CVal.cnum _ => true
  | _ => false

/-- Whether a cell value is a string. -/
def isStrCell : CVal → Bool
  | CVal.cstr _ => true
  | _ => false

/-- Model of `str.title()` on the ASCII range: uppercase a letter that does not
follow a letter, lowercase a letter that does. -/
def pyTitleAux : Bool → List Char → List Char
  | _, [] => []
  | prevAlpha, c :: cs =>
    let c2 := if c.isAlpha then (if prevAlpha then asciiLower c else c.toUpper) else c
    c2 :: pyTitleAux c.isAlpha cs

/-- Model of `s.replace('_', ' ').title()`, the axis-title rendering. -/
def axisTitle (s : String) : String :=
  ⟨pyTitleAux false (replaceAll s "_" " ").data⟩

/-- The time-like column names preferred for the x-axis. -/
def timeColumns : List String := ["date", "time_period", "month", "year", "day"]

/-- Model of `generate_chart_spec(results, intent, chart_type=None)`: decide chart
type from the intent, pick x/y axes from the result columns, and build a
`ChartSpec`; abstain (`None`) when there are no rows or no valid axis pair
(a column name that is empty is falsy in the source's `not x_axis` test). -/
def generateChartSpec (results : List Row) (intent : ParsedIntent)
    (chartTypeArg : Option String := none) : Option ChartSpec :=
  match results with
  | [] => none
  | r0 :: _ =>
    let chartType :=
      match chartTypeArg with
      | some t => t
      | none =>
        if intent.isComparison then "bar"
        else if intent.intentType = some IntentType.spendingByCategory then
          (if results.length ≤ 10 then "pie" else "bar")
        else if intent.timeGranularity.isSome then "line"
        else "bar"
    let columns := r0.map Prod.fst
    let xTime := timeColumns.find? (fun col => columns.contains col)
    let xAxis :=
      match xTime with
      | some c => some c
      | none => columns.find? (fun col => !results.any (fun r => isNumCell (pyGet r col)))
    let yFirst := columns.find? (fun col =>
      xAxis ≠ some col && results.all (fun r => !isStrCell (pyGet r col)))
    let yAxis :=
      match yFirst with
      | some c => some c
      | none => columns.find? (fun col =>
          xAxis ≠ some col && results.any (fun r => isNumCell (pyGet r col)))
    match xAxis, yAxis with
    | some x, some y =>
      if x = "" || y = "" then none
      else
        let title :=
          if intent.isComparison then "Comparison of " ++ axisTitle y
          else if intent.intentType = some IntentType.spendingByCategory then
            "Spending by " ++ axisTitle x
          else if intent.timeGranularity.isSome then axisTitle y ++ " Over Time"
          else axisTitle y ++ " by " ++ axisTitle x
        some ⟨chartType, x, y, title, axisTitle x, axisTitle y, "plotly", 800, 500⟩
    | _, _ => none

end ChartNode

namespace AnswerSynth

open StrUtil IntentModel SQLiteTool ChartNode

/-- Model of `row.get(key, default)`. -/
def pyGetD (r : Row) (k : String) (d : CVal) : CVal := (r.lookup k).getD d

/-- Python `value == 0` on a cell: numeric zero compares equal; `None` and
strings compare unequal (no exception). -/
def cvalEqZero : CVal → Bool
  | CVal.cnum q => q = 0
  | _ => false

/-- Coerce a cell to a number for arithmetic/ordering; `None` and strings
raise `TypeError`. -/
def cvalAsNum : CVal → Except String ℚ
  | CVal.cnum q => Except.ok q
  | _ => Except.error "TypeError"

/-- Group the decimal digits of a natural number with thousands commas
(Python thousands-separator formatting).  Works on the reversed digit
list. -/
def groupRevDigits : List Char → List Char
  | a :: b :: c :: d :: rest => a :: b :: c :: ',' :: groupRevDigits (d :: rest)
  | l => l

/-- Python comma-grouped integer rendering of a natural number. -/
def commaNat (n : Nat) : String :=
  ⟨(groupRevDigits (natDigitsAux (n + 1) n).reverse).reverse⟩

/-- Python `int(q)`: truncation toward zero. -/
def ratTrunc (q : ℚ) : Int := if 0 ≤ q then Int.floor q else Int.ceil q

/-- Model of `AnswerSynthesizer.format_currency` with the default `CLP` currency:
the dollar sign, the comma-grouped truncated amount, and the currency
code. -/
def formatCurrency (amount : ℚ) : String :=
  let i := ratTrunc amount
  "$" ++ (if i < 0 then "-" else "") ++ commaNat i.natAbs ++ " CLP"

/-- Python `f"{q:.1f}"`, one decimal place; ties are resolved upward here (a
tie is an artifact of binary float rounding in the source, which never
formats exact halves). -/
def formatFloat1 (q : ℚ) : String :=
  let m : Int := round (q * 10)
  (if m < 0 then "-" else "") ++ natRepr (m.natAbs / 10) ++ "." ++ natRepr (m.natAbs % 10)

/-- The comparison header `## <mojibake-emoji> Comparison` exactly as its
characters appear in the source file. -/
def headerComparison : String :=
  "## " ++ ⟨[Char.ofNat 240, Char.ofNat 376, Char.ofNat 8221, Char.ofNat 8222]⟩ ++ " Comparison"

/-- The upward-trend marker characters of the source. -/
def emojiUp : String :=
  ⟨[Char.ofNat 240, Char.ofNat 376, Char.ofNat 8220, Char.ofNat 710]⟩

/-- The downward-trend marker characters of the source. -/
def emojiDown : String :=
  ⟨[Char.ofNat 240, Char.ofNat 376, Char.ofNat 8220, Char.ofNat 8240]⟩

/-- The parts list built by the `_format_comparison(query, results,
metadata, chart_path)` definition at answer_synth.py lines 326-351.  That
definition is DEAD CODE: it sits, indented, after the `return` statement of
the module-level `generate_answer`, so it never becomes a method of
`AnswerSynthesizer` and never executes.  It is embedded here to exhibit the
rendering the specification describes. -/
def deadFormatComparisonParts (results : List Row) : Except String (List String) :=
  let parts := [headerComparison]
  match results with
  | [] => Except.ok parts
  | row :: _ =>
    let current := pyGetD row "current_value" (CVal.cnum 0)
    let previous := pyGetD row "previous_value" (CVal.cnum 0)
    let difference := pyGetD row "difference" (CVal.cnum 0)
    let pctChange := pyGetD row "pct_change" (CVal.cnum 0)
    if cvalEqZero previous then
      Except.ok (parts ++ ["No previous data available for comparison."])
    else do
      let diffq ← cvalAsNum difference
      let direction := if 0 ≤ diffq then "up" else "down"
      let emoji := if 0 ≤ diffq then emojiUp else emojiDown
      let curq ← cvalAsNum current
      let prevq ← cvalAsNum previous
      let pctq ← cvalAsNum pctChange
      Except.ok (parts ++
        ["**Current Period:** " ++ formatCurrency curq,
         "**Previous Period:** " ++ formatCurrency prevq,
         "**Change (" ++ direction ++ "):** " ++ emoji ++ " " ++
           formatCurrency |diffq| ++ " (" ++ formatFloat1 |pctq| ++ "%)"])

/-- The message of the `AttributeError` raised when `synthesize_answer`
dispatches to a per-intent formatter: every `_format_*` formatter after
line 240 of answer_synth.py is nested dead code inside `generate_answer`
(after its `return`), so `AnswerSynthesizer` has no such attributes. -/
def attrErrMsg (meth : String) : String :=
  sq ++ "AnswerSynthesizer" ++ sq ++ " object has no attribute " ++ sq ++ meth ++ sq

/-- Model of `generate_answer(results, intent, chart_spec)` as called with a row
list: empty results short-circuit to the no-results message; otherwise
`synthesize_answer` is invoked with metadata that never contains an
`error` key, so it dispatches on `intent_type` straight into a missing
formatter method and raises `AttributeError`. -/
def generateAnswer (results : List Row) (intent : ParsedIntent)
    (_chartPath : Option String) : Except String String :=
  if results.isEmpty then Except.ok "No results found matching your query."
  else
    match intent.intentType with
    | some IntentType.spendingByCategory =>
        Except.error (attrErrMsg "_format_spending_by_category")
    | some IntentType.spendingOverTime =>
        Except.error (attrErrMsg "_format_spending_over_time")
    | some IntentType.topItems => Except.error (attrErrMsg "_format_top_items")
    | some IntentType.comparison => Except.error (attrErrMsg "_format_comparison")
    | _ => Except.error (attrErrMsg "_format_generic_response")

/-- SQLite evaluation of the template's pct_change expression
`(current_value / NULLIF(previous_value, 0) - 1) * 100`: `NULLIF(x, 0)` is
`NULL` when `x = 0`, and every arithmetic operator propagates `NULL`. -/
def sqlPctChange (current previous : Option ℚ) : Option ℚ :=
  let nullified := match previous with
    | some p => if p = 0 then none else some p
    | none => none
  match current, nullified with
  | some c, some p => some ((c / p - 1) * 100)
  | _, _ => none

end AnswerSynth

namespace CategoryResolverM

open StrUtil

/-- The state of a `CategoryResolver`: the synonyms table (canonical name to
registered synonyms, in dict order), the canonical categories list, the
acceptance threshold, and the semantic phase.  `sem` is `some f` exactly
when `category_embeddings` is not `None`, and `f input` is the
cosine-similarity row of the embedded input against the category
embeddings (the embedding model and cosine similarity are opaque here;
only the scores matter to the control flow). -/
structure Resolver where
  synonyms : List (String × List String)
  categories : List String
  threshold : ℚ
  sem : Option (String → List ℚ)

/-- The exact-match test of the resolver's first phase: case-insensitive
equality against the canonical name or any registered synonym. -/
def matchesEntry (userInput : String) (entry : String × List String) : Bool :=
  lowerStr userInput = lowerStr entry.1 ||
  entry.2.any (fun s => lowerStr s = lowerStr userInput)

/-- Model of `np.argmax`: index of the first maximal element (accumulator form). -/
def argmaxAux : Nat → Nat → ℚ → List ℚ → Nat
  | _, best, _, [] => best
  | i, best, bestVal, x :: xs =>
    if bestVal < x then argmaxAux (i + 1) i x xs
    else argmaxAux (i + 1) best bestVal xs

/-- Model of `CategoryResolver.resolve_category(user_input)`: empty input or no
categories short-circuits to `(None, 0.0)`; the exact phase scans the
synonyms dict in order and returns the first match with score 1.0; the
semantic phase (when embeddings exist) takes the argmax similarity and
accepts it at or above the threshold, else `(None, 0.0)`.  (The similarity
row is nonempty whenever embeddings exist, since they are only computed for
a nonempty category list; `categories[max_idx]` is in range for the same
reason.) -/
def resolveCategory (r : Resolver) (userInput : String) : Option String × ℚ :=
  if userInput = "" || r.categories.isEmpty then (none, 0)
  else
    match r.synonyms.find? (matchesEntry userInput) with
    | some entry => (some entry.1, 1)
    | none =>
      match r.sem with
      | none => (none, 0)
      | some f =>
        match f userInput with
        | [] => (none, 0)
        | x :: xs =>
          let maxIdx := argmaxAux 1 0 x xs
          let maxSim := (x :: xs).getD maxIdx 0
          if r.threshold ≤ maxSim then (some (r.categories.getD maxIdx ""), maxSim)
          else (none, 0)

/-- Model of `resolve_categories(categories, resolver)`: resolve each input in
order. -/
def resolveCategories (r : Resolver) (cats : List String) :
    List (String × Option String × ℚ) :=
  cats.map (fun c => (c, resolveCategory r c))

end CategoryResolverM

namespace Orchestrator

open StrUtil IntentModel SQLPlannerM SQLiteTool ChartNode AnswerSynth CategoryResolverM

/-- The `QueryResult` dataclass of db_executor.py. -/
structure QueryResultE where
  rows : List Row
  columns : List String
  rowcount : Nat
  error : Option String
deriving DecidableEq, Repr

/-- Model of `db_executor.execute_query`: run the query through `SQLiteTool.execute`
and capture any raised error into the result's `error` field. -/
def dbExecuteQuery (dbExec : String → List (String × PVal) → Except String ExecResult)
    (sql : String) (params : List (String × PVal)) : QueryResultE :=
  match SQLiteTool.execute dbExec sql params with
  | Except.ok r => ⟨r.rows, r.columns, r.rows.length, none⟩
  | Except.error e => ⟨[], [], 0, some e⟩

/-- The `GraphState` threaded through the orchestrator.  `intent` and
`resolvedCategories` model the `metadata` entries of the same names. -/
structure GraphState where
  userQuery : Option String
  intent : Option ParsedIntent
  sqlPlan : Option (String × List (String × PVal))
  results : Option QueryResultE
  chartSpec : Option ChartSpec
  answerMarkdown : Option String
  resolvedCategories : Option (List (String × Option String × ℚ))
  error : Option String

/-- A fresh pipeline state for a user query. -/
def initState (q : Option String) : GraphState :=
  ⟨q, none, none, none, none, none, none, none⟩

/-- Model of `GraphBuilder._parse_intent` (the `today` clock passed explicitly). -/
def parseIntentStage (today : Int) (s : GraphState) : GraphState :=
  match s.userQuery with
  | none => { s with error := some "No query provided" }
  | some q =>
    if q = "" then { s with error := some "No query provided" }
    else { s with intent := some (parseIntent today q) }

/-- Model of `GraphBuilder._resolve_categories` with the resolver passed explicitly
(the source constructs a default `CategoryResolver()`). -/
def resolveCategoriesStage (r : Resolver) (s : GraphState) : GraphState :=
  if s.error.isSome then s
  else
    match s.intent with
    | none => { s with error := some "No intent found to resolve categories from" }
    | some i =>
      match i.filtersCategory with
      | some cats => { s with resolvedCategories := some (resolveCategories r cats) }
      | none => s

/-- Model of `GraphBuilder._plan_sql`: a raised planning exception is converted into
the shared error slot. -/
def planSqlStage (s : GraphState) : GraphState :=
  if s.error.isSome then s
  else
    match s.intent with
    | none => { s with error := some "No intent found for SQL planning" }
    | some i =>
      match generateSqlPlan i with
      | Except.ok plan => { s with sqlPlan := some plan }
      | Except.error msg => { s with error := some ("Error planning SQL: " ++ msg) }

/-- Model of `GraphBuilder._execute_query`. -/
def executeStage (dbExec : String → List (String × PVal) → Except String ExecResult)
    (s : GraphState) : GraphState :=
  if s.error.isSome then s
  else
    match s.sqlPlan with
    | none => { s with error := some "No SQL plan to execute" }
    | some plan =>
      let res := dbExecuteQuery dbExec plan.1 plan.2
      match res.error with
      | some e => { s with error := some ("Query execution failed: " ++ e) }
      | none => { s with results := some res }

/-- Model of `GraphBuilder._should_generate_chart`: the conditional edge after query
execution. -/
def shouldGenerateChart (s : GraphState) : Bool :=
  if s.error.isSome then false
  else
    match s.results with
    | none => false
    | some res =>
      if res.rows.isEmpty then false
      else
        match s.intent with
        | none => false
        | some i =>
          if i.intentType = some IntentType.spendingOverTime ||
             i.intentType = some IntentType.comparison then true
          else if i.intentType = some IntentType.spendingByCategory &&
                  decide (1 < res.rows.length) && decide (res.rows.length ≤ 20) then true
          else false

/-- Model of `GraphBuilder._generate_chart`: the node passes `state.results` — the
whole `QueryResult` object, not its row list — to `generate_chart_spec`,
which therefore raises `TypeError` when it subscripts or measures it; the
node swallows the exception (chart failure is non-fatal), so `chart_spec`
is never set. -/
def chartStage (s : GraphState) : GraphState :=
  if s.error.isSome then s
  else
    match s.results with
    | none => s
    | some res => if res.rows.isEmpty then s else s

/-- Model of `GraphBuilder._synthesize_answer`: an error state renders `Error: ...`;
an empty result renders the no-results message; otherwise `generate_answer`
is called with `state.results` — again the whole `QueryResult` object —
whose `len()` inside the metadata dict raises `TypeError`, caught by the
stage: the error slot is set and an apology is rendered. -/
def synthesizeStage (s : GraphState) : GraphState :=
  match s.error with
  | some err => { s with answerMarkdown := some ("Error: " ++ err) }
  | none =>
    match s.results with
    | none => { s with answerMarkdown := some "No results found matching your query." }
    | some res =>
      if res.rows.isEmpty then
        { s with answerMarkdown := some "No results found matching your query." }
      else
        { s with
          error := some ("Error generating answer: object of type " ++ sq ++
            "QueryResult" ++ sq ++ " has no len()"),
          answerMarkdown := some ("An error occurred: object of type " ++ sq ++
            "QueryResult" ++ sq ++ " has no len()") }

/-- The conditional edge after `execute_query`, then the merge back into
`synthesize_answer`. -/
def chartEdgeThenSynthesize (s : GraphState) : GraphState :=
  synthesizeStage (if shouldGenerateChart s then chartStage s else s)

/-- The pipeline from the SQL-planning stage to the end. -/
def runFromPlan (dbExec : String → List (String × PVal) → Except String ExecResult)
    (s : GraphState) : GraphState :=
  chartEdgeThenSynthesize (executeStage dbExec (planSqlStage s))

/-- The full pipeline on a user query. -/
def runPipeline (today : Int) (r : Resolver)
    (dbExec : String → List (String × PVal) → Except String ExecResult)
    (q : Option String) : GraphState :=
  runFromPlan dbExec (resolveCategoriesStage r (parseIntentStage today (initState q)))

/-- A post-execution state holding an intent and a result, for stating the
chart decision table. -/
def mkChartState (i : IntentModel.ParsedIntent) (res : QueryResultE) : GraphState :=
  ⟨none, some i, none, some res, none, none, none, none⟩

/-- The Chart Selector at the component level: the conditional-edge decision
applied to a state, with `generate_chart_spec` applied to the rows it was
written for.  This is the `select(results, intent)` composite the
specification's decision table describes. -/
def chartSelect (s : GraphState) : Option ChartSpec :=
  if shouldGenerateChart s then
    match s.results, s.intent with
    | some res, some i => generateChartSpec res.rows i
    | some res, none => generateChartSpec res.rows emptyIntent
    | _, _ => none
  else none

end Orchestrator

namespace Examples

open IntentModel SQLiteTool ChartNode Orchestrator

/-- A fully bounded comparison intent (current period 2025-09-02 to
2025-10-01, previous period 2025-08-04 to 2025-09-02, as day numbers), used
to exhibit the previous-period parameter naming. -/
def cmpIntentC4 : ParsedIntent :=
  ⟨some IntentType.comparison, (some 20332, some 20361), none, [], ["amount"],
   none, none, none, none, true, some (some 20303, some 20332)⟩

/-- A comparison intent for the zero-previous-value rendering scenario. -/
def cmpIntentC5 : ParsedIntent :=
  ⟨some IntentType.comparison, (some 20332, some 20361), none, [], ["amount"],
   none, none, none, none, true, some (some 20303, some 20332)⟩

/-- A comparison result row whose previous value is zero (its pct_change is
the SQL `NULL` the safe division produces). -/
def zeroPrevRow : Row :=
  [("current_value", CVal.cnum 100), ("previous_value", CVal.cnum 0),
   ("difference", CVal.cnum 100), ("pct_change", CVal.cnull)]

/-- A comparison intent whose comparison period has both bounds absent. -/
def cmpIntentC6 : ParsedIntent :=
  ⟨some IntentType.comparison, (some 20332, none), none, [], ["amount"],
   none, none, none, none, true, some (none, none)⟩

/-- A pipeline state entering the SQL-planning stage with the invalid
comparison intent. -/
def stateC6 : GraphState :=
  ⟨some "compare stuff", some cmpIntentC6, none, none, none, none, none, none⟩

/-- A spending-over-time intent (for the chart decision table). -/
def overTimeIntentC7 : ParsedIntent :=
  ⟨some IntentType.spendingOverTime, (some 20332, some 20361), none, [],
   ["amount"], none, none, none, none, false, none⟩

/-- A one-column, all-numeric result: no x-axis candidate exists, so the
chart generator must abstain. -/
def numericOnlyResultC7 : QueryResultE :=
  ⟨[[("total_amount", CVal.cnum 5)]], ["total_amount"], 1, none⟩

/-- The post-execution state for the abstention counterexample. -/
def stateC7 : GraphState :=
  ⟨some "spending over time", some overTimeIntentC7, none,
   some numericOnlyResultC7, none, none, none, none⟩

/-- A spending-by-category intent for the amended decision-table witness. -/
def byCategoryIntentC7 : ParsedIntent :=
  ⟨some IntentType.spendingByCategory, (some 20332, some 20361), none,
   ["category"], ["amount"], none, none, none, none, false, none⟩

/-- Three category rows (category and total), a shape that yields a pie
chart. -/
def categoryRowsC7 : List Row :=
  [[("category", CVal.cstr "food"), ("total_amount", CVal.cnum 10)],
   [("category", CVal.cstr "transport"), ("total_amount", CVal.cnum 7)],
   [("category", CVal.cstr "rent"), ("total_amount", CVal.cnum 30)]]

/-- The execution result for the decision-table witness. -/
def resC7w : QueryResultE :=
  ⟨categoryRowsC7, ["category", "total_amount"], 3, none⟩

/-- The post-execution state for the decision-table witness. -/
def stateC7w : GraphState :=
  ⟨none, some byCategoryIntentC7, none, some resC7w, none, none, none, none⟩

/-- A resolver with one canonical category and one synonym, no embedding
space. -/
def resolverC9a : CategoryResolverM.Resolver :=
  ⟨[("Food", ["groceries"])], ["Food"], 3/5, none⟩

/-- A resolver whose semantic phase scores every input 0.5, below the 0.6
threshold. -/
def resolverC9b : CategoryResolverM.Resolver :=
  ⟨[("Food", ["groceries"])], ["Food"], 3/5, some (fun _ => [1/2])⟩

/-- A spending-over-time intent with a bounded time range and one category
filter, used to exercise the SQLPlan placeholder invariant. -/
def i2a : ParsedIntent :=
  ⟨some IntentType.spendingOverTime, (some 20332, some 20361), none, [], ["amount"],
   some ["Food"], none, none, none, false, none⟩

/-- An intent of the same shape as `i2a` but with different user-supplied
filter values (other time bounds, another category string). -/
def i2b : ParsedIntent :=
  ⟨some IntentType.spendingOverTime, (some 20240, some 20270), none, [], ["amount"],
   some ["Transport"], none, none, none, false, none⟩

/-- The query text compiled from `i2a`. -/
def q2a : String :=
  match SQLPlannerM.generateSqlPlan i2a with
  | Except.ok p => p.1
  | Except.error _ => ""

/-- The parameter mapping compiled from `i2a`. -/
def ps2a : List (String × PVal) :=
  match SQLPlannerM.generateSqlPlan i2a with
  | Except.ok p => p.2
  | Except.error _ => []

end Examples

section C1Theorems

open StrUtil SQLiteTool

/-- C1: for every query whose comment-stripped, lowercased text contains a
blocked keyword as a whole word, or whose stripped and trimmed text does not
start with `select`, `execute` rejects it with the safety `ValueError` —
uniformly in the storage engine `dbExec`, i.e. before any statement is sent
to the storage engine. -/
theorem execute_rejects_unsafe
    (dbExec : String → List (String × PVal) → Except String ExecResult)
    (query : String) (params : List (String × PVal))
    (h : blockedOperations.any
          (fun op => containsWord op (lowerStr (stripComments query))) = true ∨
        "select".data.isPrefixOf
          (pyStrip (lowerStr (stripComments query)).data) = false) :
    SQLiteTool.execute dbExec query params =
      Except.error "Query contains unsafe operations" := by
  have hsafe : isSafeQuery query = false := by
    unfold isSafeQuery
    rcases h with h | h <;> simp [h]
  unfold SQLiteTool.execute
  rw [hsafe]
  simp

/-- Witness for C1 at the concrete query `DROP TABLE x`, with a storage
engine that would happily answer: the blocked-keyword test fires and
`execute` rejects the query without consulting the engine. -/
theorem execute_rejects_unsafe_witness :
    (blockedOperations.any
      (fun op => containsWord op (lowerStr (stripComments "DROP TABLE x"))) = true ∨
     "select".data.isPrefixOf
       (pyStrip (lowerStr (stripComments "DROP TABLE x")).data) = false) ∧
    SQLiteTool.execute (fun _ _ => Except.ok ⟨[], []⟩) "DROP TABLE x" [] =
      Except.error "Query contains unsafe operations" :=
  ⟨Or.inl (by decide),
   execute_rejects_unsafe (fun _ _ => Except.ok ⟨[], []⟩) "DROP TABLE x" []
     (Or.inl (by decide))⟩

end C1Theorems


section C3Theorems

open IntentModel Dates

/-- C3 counterexample: for the current range 2025-09-01 to 2025-09-30 the
code derives the comparison period 2025-08-03 to 2025-09-01 — the window is
29 days long (the length of the current range), not the 30-day window
2025-08-02 to 2025-09-01 the claim states, and its end coincides with the
current range's start day. -/
theorem comparison_period_concrete_mismatch :
    extractComparisonPeriod
        (some (daysFromCivil 2025 9 1), some (daysFromCivil 2025 9 30)) =
      some (daysFromCivil 2025 8 3, daysFromCivil 2025 9 1) ∧
    daysFromCivil 2025 8 3 ≠ daysFromCivil 2025 8 2 := by
  constructor
  · decide
  · decide

/-- C3 amended: for a fully bounded current range the derived comparison
period is exactly the prior window of the same length `end - start` ending
at the current start: `(start - (end - start), start)`.  Its length equals
`current_end - current_start`, and it abuts the current range sharing the
single boundary day `start` (so under inclusive day ranges the two ranges
meet exactly at that day).  For 2025-09-01 to 2025-09-30 this gives
2025-08-03 to 2025-09-01. -/
theorem comparison_period_prior_window (s e : Int) :
    extractComparisonPeriod (some s, some e) = some (s - (e - s), s) ∧
    s - (s - (e - s)) = e - s := by
  constructor
  · rfl
  · ring

end C3Theorems

section C10Theorems

open IntentModel SQLPlannerM

/-- C10: compilation is deterministic and idempotent in its input — the two
components of `compileTwice` (two successive compilations of the same
intent) are definitionally equal, queries and parameter mappings alike,
because the embedded planner is a pure function of the intent (the source
reads no clock, randomness, or mutable global state while planning). -/
theorem plan_sql_idempotent (i : ParsedIntent) :
    (compileTwice i).1 = (compileTwice i).2 := rfl

end C10Theorems

section C4Theorems

open IntentModel SQLPlannerM SQLiteTool Placeholders Examples

/-- C4: at a fully bounded comparison intent, the compiled parameter
mapping does carry the `prev_`-prefixed names, but the query text never
references them: its placeholders are the unprefixed `time_start`,
`time_end` twice over, so both periods' filters bind to the current
period's values and the `prev_` parameters are dead.  This contradicts the
claim (and the specification's intent) that the previous-period portion of
the query references the `prev_`-prefixed placeholders. -/
theorem comparison_prev_params_never_referenced :
    (generateSqlPlan cmpIntentC4).map (fun p => p.2.map Prod.fst) =
      Except.ok ["time_start", "time_end", "prev_time_start", "prev_time_end"] ∧
    (generateSqlPlan cmpIntentC4).map (fun p => extractPlaceholders p.1) =
      Except.ok ["time_start", "time_end", "time_start", "time_end"] :=
  ⟨rfl, rfl⟩

end C4Theorems

section C5Theorems

open IntentModel SQLiteTool AnswerSynth Examples

/-- C5: the compiled pct_change expression is NULL-safe — with a zero
previous value it evaluates to SQL `NULL`, never a division error — but the
Answer Synthesizer does not render the claimed text: dispatching a
comparison result raises `AttributeError`, because `_format_comparison`
(answer_synth.py lines 326-351) is dead code nested after the `return` of
the module-level `generate_answer` and is not a method of
`AnswerSynthesizer`.  Only that dead definition would produce the
"No previous data available for comparison." line the claim describes. -/
theorem zero_previous_rendering_dead_code :
    sqlPctChange (some 100) (some 0) = none ∧
    generateAnswer [zeroPrevRow] cmpIntentC5 none =
      Except.error (attrErrMsg "_format_comparison") ∧
    deadFormatComparisonParts [zeroPrevRow] =
      Except.ok [headerComparison, "No previous data available for comparison."] :=
  ⟨rfl, rfl, rfl⟩

end C5Theorems

section C6Theorems

open IntentModel SQLPlannerM SQLiteTool Orchestrator Examples

/-- C6: a comparison intent with an absent bound in its time_range or its
comparison_period makes planning fail with the message
`Invalid time range for comparison` (the source raises it as a `ValueError`;
the spec calls this planning failure a `PlanningError`), and the failure
short-circuits the rest of the pipeline: no plan, no execution, no chart —
only the error rendering runs, producing the error answer. -/
theorem comparison_invalid_range_short_circuits
    (dbExec : String → List (String × PVal) → Except String ExecResult)
    (s : GraphState) (i : ParsedIntent) (ps pe : Option Int)
    (hs : s.error = none) (hi : s.intent = some i)
    (hit : i.intentType = some IntentType.comparison)
    (hic : i.isComparison = true)
    (hcp : i.comparisonPeriod = some (ps, pe))
    (hmiss : i.timeRange.1 = none ∨ i.timeRange.2 = none ∨ ps = none ∨ pe = none) :
    (runFromPlan dbExec s).error =
      some "Error planning SQL: Invalid time range for comparison" ∧
    (runFromPlan dbExec s).sqlPlan = s.sqlPlan ∧
    (runFromPlan dbExec s).results = s.results ∧
    (runFromPlan dbExec s).chartSpec = s.chartSpec ∧
    (runFromPlan dbExec s).answerMarkdown =
      some "Error: Error planning SQL: Invalid time range for comparison" := by
  have hplan : generateSqlPlan i =
      Except.error "Invalid time range for comparison" := by
    unfold generateSqlPlan planSQL planComparison
    rw [hit, hic, hcp]
    have hb : (i.timeRange.1.isNone || i.timeRange.2.isNone ||
        ps.isNone || pe.isNone) = true := by
      rcases hmiss with h | h | h | h <;> simp [h]
    simp [hb]
  have hstage : planSqlStage s =
      { s with error := some "Error planning SQL: Invalid time range for comparison" } := by
    unfold planSqlStage
    rw [hs, hi]
    simp [hplan]
  unfold runFromPlan chartEdgeThenSynthesize
  rw [hstage]
  unfold executeStage shouldGenerateChart synthesizeStage
  simp

end C6Theorems

section C6Witness

open IntentModel SQLiteTool Orchestrator Examples

/-- Witness for C6 at the concrete invalid intent: both conclusions
evaluated on the concrete pipeline state. -/
theorem comparison_invalid_range_short_circuits_witness :
    (runFromPlan (fun _ _ => Except.ok ⟨[], []⟩) stateC6).error =
      some "Error planning SQL: Invalid time range for comparison" ∧
    (runFromPlan (fun _ _ => Except.ok ⟨[], []⟩) stateC6).answerMarkdown =
      some "Error: Error planning SQL: Invalid time range for comparison" := by
  have h := comparison_invalid_range_short_circuits (fun _ _ => Except.ok ⟨[], []⟩)
    stateC6 cmpIntentC6 none none rfl rfl rfl rfl rfl (Or.inr (Or.inl rfl))
  exact ⟨h.1, h.2.2.2.2⟩

end C6Witness

section C7Theorems

open IntentModel SQLiteTool ChartNode Orchestrator Examples

/-- C7 counterexample: a spending_over_time result with one all-numeric
column routes to the chart node, but `generate_chart_spec` finds no x-axis
candidate and abstains — no chart is generated, contradicting the claim
that intent_type spending_over_time always yields a chart. -/
theorem chart_overtime_abstains_concrete :
    chartSelect stateC7 = none ∧ numericOnlyResultC7.rows ≠ [] := by
  constructor
  · decide
  · decide

/-- The chart type chosen for a category breakdown that produces a chart:
pie for at most ten rows, bar otherwise. -/
theorem chartType_of_byCategory (rows : List Row) (i : ParsedIntent)
    (spec : ChartSpec) (hic : i.isComparison = false)
    (hit : i.intentType = some IntentType.spendingByCategory)
    (h : generateChartSpec rows i none = some spec) :
    spec.chartType = if rows.length ≤ 10 then "pie" else "bar" := by
  unfold generateChartSpec at h
  cases rows with
  | nil => simp at h
  | cons r0 rest =>
    simp only [hic, hit, Bool.false_eq_true, if_false, if_pos rfl] at h
    split at h
    · next x y _ =>
      split at h
      · exact absurd h (by simp)
      · rw [Option.some_inj] at h
        subst h
        simp
    · exact absurd h (by simp)

/-- C7 amended: the decision table holds with the Chart Selector's
abstention rule: zero rows yield no chart; spending_over_time and
comparison route to chart generation, whose outcome is exactly
`generate_chart_spec` (which may still abstain when no valid axis pair
exists); spending_by_category routes to chart generation iff
1 < rowcount ≤ 20, with pie for at most 10 rows and bar otherwise when a
spec is produced; every other case yields no chart. -/
theorem chart_decision_table (i : ParsedIntent) (res : QueryResultE) :
    (res.rows = [] → chartSelect (mkChartState i res) = none) ∧
    ((i.intentType = some IntentType.spendingOverTime ∨
      i.intentType = some IntentType.comparison) →
      chartSelect (mkChartState i res) = generateChartSpec res.rows i) ∧
    (i.intentType = some IntentType.spendingByCategory →
      1 < res.rows.length → res.rows.length ≤ 20 →
      chartSelect (mkChartState i res) = generateChartSpec res.rows i ∧
      (i.isComparison = false → ∀ spec, generateChartSpec res.rows i = some spec →
        spec.chartType = if res.rows.length ≤ 10 then "pie" else "bar")) ∧
    ((i.intentType ≠ some IntentType.spendingOverTime ∧
      i.intentType ≠ some IntentType.comparison ∧
      ¬(i.intentType = some IntentType.spendingByCategory ∧
        1 < res.rows.length ∧ res.rows.length ≤ 20)) →
      chartSelect (mkChartState i res) = none) := by
  refine ⟨?_, ?_, ?_, ?_⟩
  · intro hrows
    simp [chartSelect, shouldGenerateChart, mkChartState, hrows]
  · intro hty
    rcases hres : res.rows with _ | ⟨r0, rest⟩
    · simp [chartSelect, shouldGenerateChart, mkChartState, hres, generateChartSpec]
    · rcases hty with h | h <;>
        simp [chartSelect, shouldGenerateChart, mkChartState, hres, h]
  · intro hty h1 h20
    have hne : res.rows ≠ [] := by
      intro hnil
      rw [hnil] at h1
      exact absurd h1 (by simp)
    constructor
    · rcases hres : res.rows with _ | ⟨r0, rest⟩
      · exact absurd hres hne
      · rw [hres] at h1 h20
        simp only [List.length_cons] at h1 h20
        have h1' : 0 < rest.length := by omega
        have h20' : rest.length ≤ 19 := by omega
        simp [chartSelect, shouldGenerateChart, mkChartState, hres, hty, h1', h20']
    · intro hic spec hgen
      exact chartType_of_byCategory res.rows i spec hic hty hgen
  · intro hn
    obtain ⟨n1, n2, n3⟩ := hn
    rcases hres : res.rows with _ | ⟨r0, rest⟩
    · simp [chartSelect, shouldGenerateChart, mkChartState, hres]
    · by_cases hbc : i.intentType = some IntentType.spendingByCategory
      · rw [hres] at n3
        have : ¬(1 < (r0 :: rest).length ∧ (r0 :: rest).length ≤ 20) := by
          intro hc
          exact n3 ⟨hbc, hc.1, hc.2⟩
        simp [chartSelect, shouldGenerateChart, mkChartState, hres, n1, n2, hbc]
        intro h1 h20
        refine absurd ⟨?_, ?_⟩ this
        · simp only [List.length_cons]
          omega
        · simp only [List.length_cons]
          omega
      · simp [chartSelect, shouldGenerateChart, mkChartState, hres, n1, n2, hbc]

/-- Witness for C7's amended decision table at a three-row category
breakdown: the selector generates exactly the spec `generate_chart_spec`
produces, and that spec is a pie chart. -/
theorem chart_decision_table_witness :
    chartSelect (mkChartState byCategoryIntentC7 resC7w) =
      generateChartSpec categoryRowsC7 byCategoryIntentC7 ∧
    (generateChartSpec categoryRowsC7 byCategoryIntentC7).map
      ChartNode.ChartSpec.chartType = some "pie" := by
  have h := (chart_decision_table byCategoryIntentC7 resC7w).2.2.1 rfl
    (by decide) (by decide)
  exact ⟨h.1, by decide⟩

end C7Theorems

section C8Theorems

open StrUtil IntentModel

/-- C8: intent extraction is a total function of the query (the embedding
returns a `ParsedIntent` for every input string, with no failure path), and
on an input matching none of the intent-type keyword tests and none of the
time-range phrase patterns it returns the spending_over_time default over
the trailing 30 days ending at the current day. -/
theorem parse_intent_total_default (today : Int) (q : String)
    (h1 : containsSub (lowerStr q) "by category" = false)
    (h2 : containsSub (lowerStr q) "per category" = false)
    (h3 : containsSub (lowerStr q) "categories" = false)
    (h4 : containsSub (lowerStr q) "top " = false)
    (h5 : containsSub (lowerStr q) "highest " = false)
    (h6 : containsSub (lowerStr q) "most expensive" = false)
    (h7 : containsSub (lowerStr q) "compare" = false)
    (h8 : containsSub (lowerStr q) "vs" = false)
    (h9 : containsSub (lowerStr q) "versus" = false)
    (t1 : containsSub (lowerStr q) "last month" = false)
    (t2 : containsSub (lowerStr q) "this month" = false)
    (t3 : containsSub (lowerStr q) "last 30 days" = false)
    (t4 : containsSub (lowerStr q) "past month" = false)
    (t5 : containsSub (lowerStr q) "last 7 days" = false)
    (t6 : containsSub (lowerStr q) "past week" = false)
    (t7 : containsSub (lowerStr q) "yesterday" = false) :
    (parseIntent today q).intentType = some IntentType.spendingOverTime ∧
    (parseIntent today q).timeRange = (some (today - 30), some today) ∧
    (parseIntent today q).isComparison = false := by
  unfold parseIntent extractTimeRange
  simp only [h1, h2, h3, h4, h5, h6, h7, h8, h9, t1, t2, t3, t4, t5, t6, t7,
    List.any_cons, List.any_nil, Bool.or_self, Bool.or_false, Bool.false_or,
    Bool.false_eq_true, if_false]
  by_cases hby : containsSub (lowerStr q) "by" = true <;>
    simp [hby]

/-- Witness for C8 at the unrecognizable query `hello` on day 20000. -/
theorem parse_intent_total_default_witness :
    (parseIntent 20000 "hello").intentType = some IntentType.spendingOverTime ∧
    (parseIntent 20000 "hello").timeRange = (some (20000 - 30), some 20000) ∧
    (parseIntent 20000 "hello").isComparison = false :=
  parse_intent_total_default 20000 "hello"
    (by decide) (by decide) (by decide) (by decide) (by decide) (by decide)
    (by decide) (by decide) (by decide) (by decide) (by decide) (by decide)
    (by decide) (by decide) (by decide) (by decide)

end C8Theorems

section C9Theorems

open StrUtil CategoryResolverM Examples

/-- The value found by the argmax scan stays below any bound that the
running best and all remaining scores satisfy. -/
theorem argmaxAux_val_lt (t : ℚ) :
    ∀ (xs acc : List ℚ) (best : Nat) (bv : ℚ),
      best < acc.length → acc.getD best 0 = bv → bv < t →
      (∀ y ∈ xs, y < t) →
      (acc ++ xs).getD (argmaxAux acc.length best bv xs) 0 < t := by
  intro xs
  induction xs with
  | nil =>
    intro acc best bv _ hg hbv _
    simp only [argmaxAux, List.append_nil]
    rw [hg]
    exact hbv
  | cons x xs ih =>
    intro acc best bv hb hg hbv hall
    simp only [argmaxAux]
    have happ : acc ++ x :: xs = (acc ++ [x]) ++ xs := by simp
    have hlen : acc.length + 1 = (acc ++ [x]).length := by simp
    by_cases hx : bv < x
    · rw [if_pos hx, happ, hlen]
      exact ih (acc ++ [x]) acc.length x (by simp)
        (by rw [List.getD_append_right _ _ _ _ (le_refl _)]; simp)
        (hall x (List.mem_cons_self _ _))
        (fun y hy => hall y (List.mem_cons_of_mem _ hy))
    · rw [if_neg hx, happ, hlen]
      exact ih (acc ++ [x]) best bv
        (by simp only [List.length_append, List.length_singleton]; omega)
        (by rw [List.getD_append _ _ _ _ hb]; exact hg) hbv
        (fun y hy => hall y (List.mem_cons_of_mem _ hy))

/-- C9: the resolver's two contracted outcomes.  First: for a nonempty
input that case-insensitively equals a canonical name or registered synonym
of exactly one table entry (and a nonempty category list), resolution
returns that canonical name with score 1.  Second: when no entry matches
exactly and every semantic similarity score is below the threshold,
resolution returns no match with score 0. -/
theorem resolve_category_exact_and_threshold (r : Resolver) (userInput : String) :
    (userInput ≠ "" → r.categories ≠ [] →
      ∀ c syns, (c, syns) ∈ r.synonyms → matchesEntry userInput (c, syns) = true →
      (∀ p ∈ r.synonyms, matchesEntry userInput p = true → p.1 = c) →
      resolveCategory r userInput = (some c, 1)) ∧
    ((∀ p ∈ r.synonyms, matchesEntry userInput p = false) →
      (∀ f, r.sem = some f → ∀ x ∈ f userInput, x < r.threshold) →
      resolveCategory r userInput = (none, 0)) := by
  constructor
  · intro hne hcat c syns hmem hmatch huniq
    obtain ⟨p, hp⟩ : ∃ p, r.synonyms.find? (matchesEntry userInput) = some p :=
      Option.isSome_iff_exists.mp
        (List.find?_isSome.mpr ⟨(c, syns), hmem, hmatch⟩)
    have h1 := List.find?_some hp
    have h2 := List.mem_of_find?_eq_some hp
    have hpc := huniq p h2 h1
    unfold resolveCategory
    rw [hp]
    simp [hne, hcat, hpc]
  · intro hnone hsem
    unfold resolveCategory
    by_cases h0 : (decide (userInput = "") || r.categories.isEmpty) = true
    · simp [h0]
    · have hfind : r.synonyms.find? (matchesEntry userInput) = none :=
        List.find?_eq_none.mpr (fun p hp => by simp [hnone p hp])
      rw [hfind]
      simp only [Bool.not_eq_true] at h0
      rcases hs : r.sem with _ | f
      · simp [h0]
      · have hall := hsem f hs
        rcases hfx : f userInput with _ | ⟨x, xs⟩
        · simp [h0, hfx]
        · have hx : x < r.threshold := hall x (by rw [hfx]; exact List.mem_cons_self _ _)
          have hxs : ∀ y ∈ xs, y < r.threshold :=
            fun y hy => hall y (by rw [hfx]; exact List.mem_cons_of_mem _ hy)
          have hval := argmaxAux_val_lt r.threshold xs [x] 0 x (by simp) (by simp) hx hxs
          have hnot : ¬ (r.threshold ≤ (x :: xs).getD (argmaxAux 1 0 x xs) 0) := by
            simpa using not_le.mpr hval
          simp only [List.getD_eq_getElem?_getD] at hnot
          simp [h0, hfx, hnot]

/-- Witness for C9: `GROCERIES` exactly matches the registered synonym of
`Food` (score 1), and `meals`, with no exact match and a 0.5 best
similarity against a 0.6 threshold, resolves to no match with score 0. -/
theorem resolve_category_witness :
    resolveCategory resolverC9a "GROCERIES" = (some "Food", 1) ∧
    resolveCategory resolverC9b "meals" = (none, 0) := by
  constructor
  · exact (resolve_category_exact_and_threshold resolverC9a "GROCERIES").1
      (by decide) (by decide) "Food" ["groceries"] (by decide) (by decide)
      (by
        intro p hp _
        have : p = ("Food", ["groceries"]) := by
          simpa [resolverC9a] using hp
        rw [this])
  · exact (resolve_category_exact_and_threshold resolverC9b "meals").2
      (by
        intro p hp
        have : p = ("Food", ["groceries"]) := by
          simpa [resolverC9b] using hp
        rw [this]
        decide)
      (by
        intro f hf x hx
        have hfe : (fun _ : String => [(1 : ℚ)/2]) = f := by
          simpa [resolverC9b] using hf
        rw [← hfe] at hx
        have : x = 1/2 := by simpa using hx
        rw [this]
        norm_num [resolverC9b])

end C9Theorems

section C2Theorems

open StrUtil Dates IntentModel SQLiteTool SQLPlannerM Placeholders Examples

/-- A string is its character list repackaged. -/
theorem strMk_data (s : String) : String.mk s.data = s := by
  cases s
  rfl

/-- Appending strings appends their character lists. -/
theorem strData_append (a b : String) : (a ++ b).data = a.data ++ b.data := rfl

/-- Extraction of the empty text is empty at any fuel. -/
theorem extractAux_nil (f : Nat) : extractAux f [] = [] := by
  cases f <;> rfl

/-- Fuel irrelevance: any fuel at least the input length extracts the same
placeholders. -/
theorem extractAux_fuel (n : Nat) :
    ∀ (s : List Char) (f g : Nat), s.length ≤ n → s.length ≤ f →
      s.length ≤ g → extractAux f s = extractAux g s := by
  induction n with
  | zero =>
    intro s f g h _ _
    have hs : s = [] := List.eq_nil_of_length_eq_zero (Nat.le_zero.mp h)
    subst hs
    rw [extractAux_nil, extractAux_nil]
  | succ n ih =>
    intro s f g hs hf hg
    cases s with
    | nil => rw [extractAux_nil, extractAux_nil]
    | cons c cs =>
      simp only [List.length_cons] at hs hf hg
      cases f with
      | zero => omega
      | succ f2 =>
        cases g with
        | zero => omega
        | succ g2 =>
          have hdw : (cs.dropWhile isWordChar).length ≤ cs.length :=
            List.Sublist.length_le (List.dropWhile_sublist _)
          simp only [extractAux]
          by_cases hc : c = ':'
          · rw [if_pos hc, if_pos hc]
            by_cases hnm : (cs.takeWhile isWordChar).isEmpty = true
            · rw [if_pos hnm, if_pos hnm]
              exact ih cs f2 g2 (by omega) (by omega) (by omega)
            · rw [if_neg hnm, if_neg hnm,
                ih (cs.dropWhile isWordChar) f2 g2 (by omega) (by omega) (by omega)]
          · rw [if_neg hc, if_neg hc]
            exact ih cs f2 g2 (by omega) (by omega) (by omega)

/-- A non-colon head character is skipped by extraction. -/
theorem extractL_cons_nonColon (c : Char) (r : List Char) (hc : ¬ c = ':') :
    extractL (c :: r) = extractL r := by
  simp only [extractL, List.length_cons, extractAux, hc, if_false]

/-- Extraction skips over a colon-free prefix. -/
theorem extract_skip (a : List Char) (b : List Char)
    (ha : ∀ c ∈ a, ¬ c = ':') :
    extractL (a ++ b) = extractL b := by
  induction a with
  | nil => rfl
  | cons c a2 ih =>
    rw [List.cons_append,
      extractL_cons_nonColon c (a2 ++ b) (ha c (List.mem_cons_self _ _))]
    exact ih (fun x hx => ha x (List.mem_cons_of_mem _ hx))

/-- A colon-free text extracts nothing. -/
theorem extractL_colonFree (a : List Char) (ha : ∀ c ∈ a, ¬ c = ':') :
    extractL a = [] := by
  have := extract_skip a [] ha
  rw [List.append_nil] at this
  rw [this]
  rfl

/-- Model of `takeWhile`/`dropWhile` split an append exactly at the boundary where
the predicate first fails. -/
theorem takeDrop_split (p : Char → Bool) :
    ∀ (xs ys : List Char), (∀ c ∈ xs, p c = true) →
      (∀ c, ys.head? = some c → p c = false) →
      (xs ++ ys).takeWhile p = xs ∧ (xs ++ ys).dropWhile p = ys := by
  intro xs
  induction xs with
  | nil =>
    intro ys _ hy
    cases ys with
    | nil => exact ⟨rfl, rfl⟩
    | cons y ys2 =>
      have := hy y rfl
      constructor
      · simp [List.takeWhile, this]
      · simp [List.dropWhile, this]
  | cons x xs2 ih =>
    intro ys hx hy
    have hpx : p x = true := hx x (List.mem_cons_self _ _)
    have := ih ys (fun c hc => hx c (List.mem_cons_of_mem _ hc)) hy
    constructor
    · simp [List.takeWhile, hpx, this.1]
    · simp [List.dropWhile, hpx, this.2]

/-- Extraction of a placeholder: a colon followed by a nonempty word-char
name and a continuation that cannot extend it yields the name and then the
continuation's placeholders. -/
theorem extract_name (nm r : List Char) (h1 : nm ≠ [])
    (h2 : ∀ c ∈ nm, isWordChar c = true) (hr : GoodFollow r) :
    extractL (':' :: nm ++ r) = ⟨nm⟩ :: extractL r := by
  obtain ⟨htake, hdrop⟩ := takeDrop_split isWordChar nm r h2
    (fun c hc => hr c hc)
  have hnm : ((nm ++ r).takeWhile isWordChar).isEmpty = false := by
    rw [htake]
    cases nm with
    | nil => exact absurd rfl h1
    | cons _ _ => rfl
  show extractAux ((':' :: nm ++ r).length) (':' :: nm ++ r) = _
  simp only [List.length_cons, extractAux, List.append_eq]
  rw [if_pos trivial, if_neg (by simp [hnm]), htake, hdrop,
    extractAux_fuel ((nm ++ r).length) r ((nm ++ r).length) r.length
      (by simp) (by simp) (le_refl _)]
  rfl

/-- Every character emitted by the digit renderer is a decimal digit. -/
theorem natDigitsAux_isDigit :
    ∀ (fuel n : Nat) (c : Char), c ∈ natDigitsAux fuel n → c.isDigit = true := by
  intro fuel
  induction fuel with
  | zero => intro n c hc; exact absurd hc (List.not_mem_nil _)
  | succ f ih =>
    intro n c hc
    have hdigit : ∀ m : Nat, (digitChar m).isDigit = true := by
      intro m
      have hm : m % 10 < 10 := Nat.mod_lt _ (by norm_num)
      unfold digitChar
      interval_cases h : m % 10 <;> decide
    simp only [natDigitsAux] at hc
    by_cases hn : n < 10
    · rw [if_pos hn] at hc
      rw [List.mem_singleton.mp hc]
      exact hdigit n
    · rw [if_neg hn] at hc
      rcases List.mem_append.mp hc with h | h
      · exact ih (n / 10) c h
      · rw [List.mem_singleton.mp h]
        exact hdigit n

/-- Digits are word characters. -/
theorem isWordChar_of_isDigit (c : Char) (h : c.isDigit = true) :
    isWordChar c = true := by
  unfold isWordChar
  unfold Char.isAlphanum
  rw [h]
  simp

/-- Digits are not colons. -/
theorem ne_colon_of_isDigit (c : Char) (h : c.isDigit = true) : ¬ c = ':' := by
  intro hc
  rw [hc] at h
  exact absurd h (by decide)

/-- The name `category_<k>` is a nonempty word-character run. -/
theorem categoryName_wordChars (k : Nat) :
    ("category_" ++ natRepr k).data ≠ [] ∧
    ∀ c ∈ ("category_" ++ natRepr k).data, isWordChar c = true := by
  have hpre : ∀ c ∈ "category_".data, isWordChar c = true := by decide
  constructor
  · rw [strData_append]
    simp
  · intro c hc
    rw [strData_append] at hc
    rcases List.mem_append.mp hc with h | h
    · exact hpre c h
    · exact isWordChar_of_isDigit c (natDigitsAux_isDigit _ _ c h)

/-- A single-placeholder condition (`<colon-free prefix>:<name>`) extracts
exactly its name. -/
theorem condOk_onePh (a nm : String) (ha : ∀ c ∈ a.data, ¬ c = ':')
    (h1 : nm.data ≠ []) (h2 : ∀ c ∈ nm.data, isWordChar c = true) :
    CondOk (a ++ ":" ++ nm) [nm] := by
  intro r hr
  have hdata : (a ++ ":" ++ nm).data ++ r = a.data ++ (':' :: nm.data ++ r) := by
    simp [strData_append, List.append_assoc]
  rw [hdata, extract_skip a.data _ ha, extract_name nm.data r h1 h2 hr, strMk_data]
  rfl

/-- The IN-list placeholder run extracts exactly its names, in order. -/
theorem extract_phRun :
    ∀ (names : List String), names ≠ [] →
      (∀ nm ∈ names, nm.data ≠ [] ∧ ∀ c ∈ nm.data, isWordChar c = true) →
      ∀ r : List Char, GoodFollow r →
        extractL ((joinSep ", " (names.map (fun nm => ":" ++ nm))).data ++
            (')' :: r)) =
          names ++ extractL r := by
  intro names
  induction names with
  | nil => intro h; exact absurd rfl h
  | cons nm rest ih =>
    intro _ hwf r hr
    rcases hrest : rest with _ | ⟨nm2, rest2⟩
    · simp only [List.map_cons, List.map_nil, joinSep]
      have hdata : (":" ++ nm).data ++ (')' :: r) = ':' :: nm.data ++ (')' :: r) := rfl
      rw [hdata,
        extract_name nm.data (')' :: r) (hwf nm (List.mem_cons_self _ _)).1
          (hwf nm (List.mem_cons_self _ _)).2
          (fun c hc => by rw [Option.some_inj.mp hc.symm]; decide),
        extractL_cons_nonColon ')' r (by decide), strMk_data]
      rfl
    · rw [← hrest]
      have hrest_ne : rest ≠ [] := by rw [hrest]; exact List.cons_ne_nil _ _
      have hjoin : joinSep ", " ((nm :: rest).map (fun x => ":" ++ x)) =
          (":" ++ nm) ++ ", " ++ joinSep ", " (rest.map (fun x => ":" ++ x)) := by
        rw [hrest]
        simp only [List.map_cons, joinSep]
      rw [hjoin]
      have hdata : ((":" ++ nm) ++ ", " ++
          joinSep ", " (rest.map (fun x => ":" ++ x))).data ++ (')' :: r) =
          ':' :: nm.data ++ (", ".data ++
            ((joinSep ", " (rest.map (fun x => ":" ++ x))).data ++ (')' :: r))) := by
        simp [strData_append, List.append_assoc]
      rw [hdata,
        extract_name nm.data _ (hwf nm (List.mem_cons_self _ _)).1
          (hwf nm (List.mem_cons_self _ _)).2
          (fun c hc => by rw [Option.some_inj.mp hc.symm]; decide),
        extract_skip ", ".data _ (by decide),
        ih hrest_ne (fun x hx => hwf x (List.mem_cons_of_mem _ hx)) r hr,
        strMk_data]
      rfl

/-- Strings with equal character lists are equal. -/
theorem strExt (a b : String) (h : a.data = b.data) : a = b := by
  cases a
  cases b
  cases h
  rfl

/-- String append is associative. -/
theorem strAppend_assoc (a b c : String) : (a ++ b) ++ c = a ++ (b ++ c) :=
  strExt _ _ (by simp [strData_append, List.append_assoc])

/-- The time lower-bound condition extracts its parameter name. -/
theorem condOk_timeStart : CondOk "date >= :time_start" ["time_start"] := by
  have heq : "date >= " ++ ":" ++ "time_start" = "date >= :time_start" := by decide
  have h := condOk_onePh "date >= " "time_start" (by decide) (by decide) (by decide)
  rw [heq] at h
  exact h

/-- The time upper-bound condition extracts its parameter name. -/
theorem condOk_timeEnd : CondOk "date <= :time_end" ["time_end"] := by
  have heq : "date <= " ++ ":" ++ "time_end" = "date <= :time_end" := by decide
  have h := condOk_onePh "date <= " "time_end" (by decide) (by decide) (by decide)
  rw [heq] at h
  exact h

/-- The minimum-amount condition extracts its parameter name. -/
theorem condOk_minAmount : CondOk "amount >= :min_amount" ["min_amount"] := by
  have heq : "amount >= " ++ ":" ++ "min_amount" = "amount >= :min_amount" := by decide
  have h := condOk_onePh "amount >= " "min_amount" (by decide) (by decide) (by decide)
  rw [heq] at h
  exact h

/-- The maximum-amount condition extracts its parameter name. -/
theorem condOk_maxAmount : CondOk "amount <= :max_amount" ["max_amount"] := by
  have heq : "amount <= " ++ ":" ++ "max_amount" = "amount <= :max_amount" := by decide
  have h := condOk_onePh "amount <= " "max_amount" (by decide) (by decide) (by decide)
  rw [heq] at h
  exact h

/-- The category IN-list condition extracts the indexed category parameter
names, in order. -/
theorem condOk_categoryChunk (n : Nat) (hn : n ≠ 0) :
    CondOk ("category IN (" ++ categoryPlaceholders n ++ ")")
      ((List.range n).map (fun k => "category_" ++ natRepr k)) := by
  intro r hr
  have hph : categoryPlaceholders n =
      joinSep ", " (((List.range n).map (fun k => "category_" ++ natRepr k)).map
        (fun nm => ":" ++ nm)) := by
    unfold categoryPlaceholders
    rw [List.map_map]
    apply congrArg
    apply List.map_congr_left
    intro k _
    show ":category_" ++ natRepr k = ":" ++ ("category_" ++ natRepr k)
    rw [← strAppend_assoc]
    rfl
  have hdata : ("category IN (" ++ categoryPlaceholders n ++ ")").data ++ r =
      "category IN (".data ++ ((categoryPlaceholders n).data ++ (')' :: r)) := by
    simp [strData_append, List.append_assoc]
  rw [hdata, extract_skip "category IN (".data _ (by decide), hph,
    extract_phRun ((List.range n).map (fun k => "category_" ++ natRepr k))
      (by simp [hn, List.range_eq_nil])
      (fun nm hnm => by
        obtain ⟨k, _, hk⟩ := List.mem_map.mp hnm
        rw [← hk]
        exact categoryName_wordChars k)
      r hr]

/-- Every chunk of the WHERE builder extracts exactly its parameter
names. -/
theorem whereChunks_condOk (i : ParsedIntent) :
    ∀ p ∈ whereChunks i, CondOk p.1 (p.2.map Prod.fst) := by
  intro p hp
  unfold whereChunks at hp
  have hp5 := hp
  rw [List.append_assoc, List.append_assoc, List.append_assoc] at hp5
  rcases List.mem_append.mp hp5 with h | h5
  · rcases h1 : i.timeRange.1 with _ | d
    · rw [h1] at h
      exact absurd h (List.not_mem_nil _)
    · rw [h1] at h
      rw [List.mem_singleton.mp h]
      simpa using condOk_timeStart
  rcases List.mem_append.mp h5 with h | h5
  · rcases h2 : i.timeRange.2 with _ | d
    · rw [h2] at h
      exact absurd h (List.not_mem_nil _)
    · rw [h2] at h
      rw [List.mem_singleton.mp h]
      simpa using condOk_timeEnd
  rcases List.mem_append.mp h5 with h | h5
  · rcases h3 : i.filtersCategory with _ | cats
    · rw [h3] at h
      exact absurd h (List.not_mem_nil _)
    · rw [h3] at h
      by_cases hemp : cats.isEmpty
      · simp [hemp] at h
      · simp only [hemp, Bool.false_eq_true, if_false, List.mem_singleton] at h
        rw [h]
        have hlen : cats.length ≠ 0 := by
          intro h0
          exact hemp (by rw [List.isEmpty_iff, ← List.length_eq_zero]; exact h0)
        have hmap : (cats.enum.map
            (fun kc => ("category_" ++ natRepr kc.1, PVal.pstr kc.2))).map Prod.fst =
            (List.range cats.length).map (fun k => "category_" ++ natRepr k) := by
          rw [List.map_map, ← List.enum_map_fst cats, List.map_map]
          rfl
        show CondOk _ _
        rw [hmap]
        exact condOk_categoryChunk cats.length hlen
  rcases List.mem_append.mp h5 with h | h
  · rcases h4 : i.filtersMin with _ | v
    · rw [h4] at h
      exact absurd h (List.not_mem_nil _)
    · rw [h4] at h
      rw [List.mem_singleton.mp h]
      simpa using condOk_minAmount
  · rcases h6 : i.filtersMax with _ | v
    · rw [h6] at h
      exact absurd h (List.not_mem_nil _)
    · rw [h6] at h
      rw [List.mem_singleton.mp h]
      simpa using condOk_maxAmount

/-- Joining CondOk chunks with ` AND ` yields a CondOk conjunction whose
names are the chunks' names concatenated. -/
theorem condOk_joinAnd :
    ∀ (chunks : List (String × List String)), chunks ≠ [] →
      (∀ p ∈ chunks, CondOk p.1 p.2) →
      CondOk (joinSep " AND " (chunks.map Prod.fst))
        ((chunks.map Prod.snd).flatten) := by
  intro chunks
  induction chunks with
  | nil => intro h; exact absurd rfl h
  | cons p rest ih =>
    intro _ hok
    rcases hrest : rest with _ | ⟨q, rest2⟩
    · intro r hr
      simp only [List.map_cons, List.map_nil, joinSep, List.flatten]
      rw [List.append_nil]
      exact hok p (List.mem_cons_self _ _) r hr
    · rw [← hrest]
      have hrest_ne : rest ≠ [] := by
        rw [hrest]
        exact List.cons_ne_nil _ _
      intro r hr
      have hjoin : joinSep " AND " ((p :: rest).map Prod.fst) =
          p.1 ++ " AND " ++ joinSep " AND " (rest.map Prod.fst) := by
        rw [hrest]
        simp only [List.map_cons, joinSep]
      rw [hjoin]
      have hdata : (p.1 ++ " AND " ++ joinSep " AND " (rest.map Prod.fst)).data ++ r =
          p.1.data ++ (" AND ".data ++
            ((joinSep " AND " (rest.map Prod.fst)).data ++ r)) := by
        simp [strData_append, List.append_assoc]
      rw [hdata,
        hok p (List.mem_cons_self _ _) _ (fun c hc => by rw [Option.some_inj.mp hc.symm]; decide),
        extract_skip " AND ".data _ (by decide),
        ih hrest_ne (fun x hx => hok x (List.mem_cons_of_mem _ hx)) r hr]
      simp [List.append_assoc]

/-- The assembled WHERE clause extracts exactly its parameter names. -/
theorem buildWhereClause_condOk (i : ParsedIntent) :
    CondOk (buildWhereClause i).1 ((buildWhereClause i).2.map Prod.fst) := by
  unfold buildWhereClause
  by_cases hemp : (whereChunks i).isEmpty
  · have : whereChunks i = [] := List.isEmpty_iff.mp hemp
    rw [this]
    intro r _
    rfl
  · have hne : whereChunks i ≠ [] := by
      intro h0
      rw [h0] at hemp
      exact hemp rfl
    simp only [hemp, Bool.false_eq_true, if_false]
    intro r hr
    have hmap : ((whereChunks i).map Prod.snd).flatten.map Prod.fst =
        ((whereChunks i).map (fun p => p.2.map Prod.fst)).flatten := by
      rw [List.map_flatten, List.map_map]
      rfl
    have hdata : ("WHERE " ++ joinSep " AND " ((whereChunks i).map Prod.fst)).data ++ r =
        "WHERE ".data ++ ((joinSep " AND " ((whereChunks i).map Prod.fst)).data ++ r) := by
      simp [strData_append, List.append_assoc]
    rw [hmap, hdata, extract_skip "WHERE ".data _ (by decide)]
    have hok : ∀ p ∈ (whereChunks i).map (fun p => (p.1, p.2.map Prod.fst)),
        CondOk p.1 p.2 := by
      intro p hp
      obtain ⟨q, hq, hpq⟩ := List.mem_map.mp hp
      rw [← hpq]
      exact whereChunks_condOk i q hq
    have := condOk_joinAnd ((whereChunks i).map (fun p => (p.1, p.2.map Prod.fst)))
      (by simp [hne]) hok r hr
    rw [List.map_map, List.map_map] at this
    exact this

/-- Every time-bucket expression is colon-free. -/
theorem getTimeExpression_colonFree (g : Option Gran) :
    ∀ c ∈ (getTimeExpression g).data, ¬ c = ':' := by
  cases g with
  | none => decide
  | some g2 => cases g2 <;> decide

/-- Decimal renderings are colon-free. -/
theorem natRepr_colonFree (n : Nat) : ∀ c ∈ (natRepr n).data, ¬ c = ':' :=
  fun c hc => ne_colon_of_isDigit c (natDigitsAux_isDigit _ _ c hc)

/-- Integer renderings are colon-free. -/
theorem intRepr_colonFree (x : Int) : ∀ c ∈ (intRepr x).data, ¬ c = ':' := by
  intro c hc
  unfold intRepr at hc
  by_cases hx : x < 0
  · rw [if_pos hx, strData_append] at hc
    rcases List.mem_append.mp hc with h | h
    · rw [List.mem_singleton.mp h]
      decide
    · exact natRepr_colonFree _ c h
  · rw [if_neg hx] at hc
    exact natRepr_colonFree _ c hc

/-- The rendered limit value (`str(limit)` or `None`) is colon-free. -/
theorem limitStr_colonFree (o : Option Int) :
    ∀ c ∈ (match o with | some n => intRepr n | none => "None").data, ¬ c = ':' := by
  cases o with
  | none => decide
  | some n => exact intRepr_colonFree n

/-- A continuation starting with a newline cannot extend a name. -/
theorem goodFollow_newline (t : List Char) : GoodFollow ('\n' :: t) := by
  intro c hc
  rw [Option.some_inj.mp hc.symm]
  decide

/-- A continuation made of a nonempty non-word-leading string's characters
followed by anything cannot extend a name. -/
theorem goodFollow_strData (a : String) (X : List Char)
    (hne : a.data ≠ [])
    (ha : ∀ c, a.data.head? = some c → isWordChar c = false) :
    GoodFollow (a.data ++ X) := by
  intro c hc
  cases hda : a.data with
  | nil => exact absurd hda hne
  | cons y ys =>
    rw [hda, List.cons_append] at hc
    simp only [List.head?_cons, Option.some_inj] at hc
    rw [← hc]
    exact ha y (by rw [hda]; rfl)

/-- Model of `extract_overTime`: the spending-over-time query's placeholders are
exactly its parameter names. -/
theorem extract_overTime (table : String) (i : ParsedIntent)
    (htable : ∀ c ∈ table.data, ¬ c = ':') :
    extractPlaceholders (planSpendingOverTime table i).1 =
      (planSpendingOverTime table i).2.map Prod.fst := by
  show extractL _ = _
  unfold planSpendingOverTime
  have hdata : (("\n                SELECT \n                    " ++
      getTimeExpression i.timeGranularity ++
      " AS time_period,\n                    SUM(amount) as total_amount\n                FROM " ++
      table ++ "\n                " ++ (buildWhereClause i).1 ++
      "\n                GROUP BY time_period\n                ORDER BY time_period\n            ").data) =
      "\n                SELECT \n                    ".data ++
      ((getTimeExpression i.timeGranularity).data ++
      (" AS time_period,\n                    SUM(amount) as total_amount\n                FROM ".data ++
      (table.data ++
      ("\n                ".data ++
      ((buildWhereClause i).1.data ++
      "\n                GROUP BY time_period\n                ORDER BY time_period\n            ".data))))) := by
    simp [strData_append, List.append_assoc]
  rw [hdata,
    extract_skip _ _ (by decide),
    extract_skip _ _ (getTimeExpression_colonFree i.timeGranularity),
    extract_skip _ _ (by decide),
    extract_skip _ _ htable,
    extract_skip _ _ (by decide),
    buildWhereClause_condOk i _ (goodFollow_newline _),
    extractL_colonFree _ (by decide), List.append_nil]

/-- A character of a separated join comes from the separator or from one of
the joined strings. -/
theorem joinSep_chars (sep : String) :
    ∀ (l : List String) (c : Char), c ∈ (joinSep sep l).data →
      c ∈ sep.data ∨ ∃ t ∈ l, c ∈ t.data := by
  intro l
  induction l with
  | nil =>
    intro c hc
    exact absurd hc (List.not_mem_nil _)
  | cons t rest ih =>
    intro c hc
    rcases hrest : rest with _ | ⟨t2, rest2⟩
    · rw [hrest] at hc
      simp only [joinSep] at hc
      exact Or.inr ⟨t, List.mem_cons_self _ _, hc⟩
    · rw [← hrest]
      have hj : joinSep sep (t :: rest) = t ++ sep ++ joinSep sep rest := by
        rw [hrest]
        simp only [joinSep]
      rw [hj, strData_append, strData_append] at hc
      rcases List.mem_append.mp hc with h | h
      · rcases List.mem_append.mp h with h | h
        · exact Or.inr ⟨t, List.mem_cons_self _ _, h⟩
        · exact Or.inl h
      · rcases ih c h with h | ⟨u, hu, hcu⟩
        · exact Or.inl h
        · exact Or.inr ⟨u, List.mem_cons_of_mem _ hu, hcu⟩

/-- Rendered digits never contain an uppercase W. -/
theorem natRepr_noW (n : Nat) : 'W' ∉ (natRepr n).data := by
  intro h
  have := natDigitsAux_isDigit _ _ 'W' h
  exact absurd this (by decide)

/-- No condition chunk text contains an uppercase W. -/
theorem whereChunks_noW (i : ParsedIntent) :
    ∀ p ∈ whereChunks i, 'W' ∉ p.1.data := by
  intro p hp
  unfold whereChunks at hp
  rw [List.append_assoc, List.append_assoc, List.append_assoc] at hp
  rcases List.mem_append.mp hp with h | h5
  · rcases h1 : i.timeRange.1 with _ | d
    · rw [h1] at h
      exact absurd h (List.not_mem_nil _)
    · rw [h1] at h
      rw [List.mem_singleton.mp h]
      exact (by decide : ¬ 'W' ∈ "date >= :time_start".data)
  rcases List.mem_append.mp h5 with h | h5
  · rcases h2 : i.timeRange.2 with _ | d
    · rw [h2] at h
      exact absurd h (List.not_mem_nil _)
    · rw [h2] at h
      rw [List.mem_singleton.mp h]
      exact (by decide : ¬ 'W' ∈ "date <= :time_end".data)
  rcases List.mem_append.mp h5 with h | h5
  · rcases h3 : i.filtersCategory with _ | cats
    · rw [h3] at h
      exact absurd h (List.not_mem_nil _)
    · rw [h3] at h
      by_cases hemp : cats.isEmpty
      · simp [hemp] at h
      · simp only [hemp, Bool.false_eq_true, if_false, List.mem_singleton] at h
        rw [h]
        intro hW
        show False
        have hW2 : 'W' ∈ ("category IN (" ++ categoryPlaceholders cats.length ++ ")").data := hW
        rw [strData_append, strData_append] at hW2
        rcases List.mem_append.mp hW2 with hw | hw
        · rcases List.mem_append.mp hw with hw | hw
          · exact absurd hw (by decide)
          · unfold categoryPlaceholders at hw
            rcases joinSep_chars _ _ _ hw with hs | ⟨t, ht, hct⟩
            · exact absurd hs (by decide)
            · obtain ⟨k, _, hk⟩ := List.mem_map.mp ht
              rw [← hk, strData_append] at hct
              rcases List.mem_append.mp hct with hc2 | hc2
              · exact absurd hc2 (by decide)
              · exact natRepr_noW k hc2
        · exact absurd hw (by decide)
  rcases List.mem_append.mp h5 with h | h
  · rcases h4 : i.filtersMin with _ | v
    · rw [h4] at h
      exact absurd h (List.not_mem_nil _)
    · rw [h4] at h
      rw [List.mem_singleton.mp h]
      exact (by decide : ¬ 'W' ∈ "amount >= :min_amount".data)
  · rcases h6 : i.filtersMax with _ | v
    · rw [h6] at h
      exact absurd h (List.not_mem_nil _)
    · rw [h6] at h
      rw [List.mem_singleton.mp h]
      exact (by decide : ¬ 'W' ∈ "amount <= :max_amount".data)

/-- A needle whose first character is absent from the haystack never
occurs. -/
theorem noSub_of_head_notMem (c0 : Char) (t : List Char) :
    ∀ s : List Char, c0 ∉ s → subList (c0 :: t) s = false := by
  intro s
  induction s with
  | nil => intro _; rfl
  | cons c cs ih =>
    intro hmem
    have hne : (c0 == c) = false := by
      rw [beq_eq_false_iff_ne]
      intro h0
      exact hmem (h0 ▸ List.mem_cons_self _ _)
    show (List.isPrefixOf (c0 :: t) (c :: cs) || subList (c0 :: t) cs) = false
    rw [List.isPrefixOf, hne, Bool.false_and, Bool.false_or]
    exact ih (fun h => hmem (List.mem_cons_of_mem _ h))

/-- Replacement is the identity on a text with no occurrence of the
pattern. -/
theorem replaceAllAux_noSub (pat rep : List Char) :
    ∀ (s : List Char) (fuel : Nat), subList pat s = false →
      replaceAllAux pat rep fuel s = s := by
  intro s
  induction s with
  | nil =>
    intro fuel _
    cases fuel <;> rfl
  | cons c cs ih =>
    intro fuel h
    have h2 : (pat.isPrefixOf (c :: cs) || subList pat cs) = false := h
    rw [Bool.or_eq_false_iff] at h2
    cases fuel with
    | zero => rfl
    | succ f =>
      show (if pat.isPrefixOf (c :: cs) = true then _ else _) = _
      rw [if_neg (by rw [h2.1]; exact Bool.false_ne_true)]
      rw [ih f h2.2]

/-- Stripping the `WHERE ` prefix via `str.replace` leaves the conjunction
itself untouched when the conjunction does not contain the pattern. -/
theorem replaceAll_where (J : String)
    (hno : subList "WHERE ".data J.data = false) :
    replaceAll ("WHERE " ++ J) "WHERE " "" = J := by
  apply strExt
  show replaceAllAux "WHERE ".data "".data ("WHERE " ++ J).data.length
      ("WHERE " ++ J).data = J.data
  have hdata : ("WHERE " ++ J).data = 'W' :: ('H' :: 'E' :: 'R' :: 'E' :: ' ' :: J.data) := rfl
  have hlen : ("WHERE " ++ J).data.length = (5 + J.data.length) + 1 := by
    rw [hdata]
    simp
    omega
  rw [hlen, hdata]
  show (if List.isPrefixOf "WHERE ".data ('W' :: 'H' :: 'E' :: 'R' :: 'E' :: ' ' :: J.data) = true
      then "".data ++ replaceAllAux "WHERE ".data "".data (5 + J.data.length)
        (('W' :: 'H' :: 'E' :: 'R' :: 'E' :: ' ' :: J.data).drop "WHERE ".data.length)
      else _) = J.data
  rw [if_pos (by
    have : ('W' :: 'H' :: 'E' :: 'R' :: 'E' :: ' ' :: J.data) = "WHERE ".data ++ J.data := rfl
    rw [this]
    exact List.isPrefixOf_iff_prefix.mpr (List.prefix_append _ _))]
  have hdrop : ('W' :: 'H' :: 'E' :: 'R' :: 'E' :: ' ' :: J.data).drop "WHERE ".data.length =
      J.data := rfl
  rw [hdrop, replaceAllAux_noSub _ _ _ _ hno]
  rfl

/-- The conjunction under the `WHERE ` prefix, as CondOk. -/
theorem whereJoin_condOk (i : ParsedIntent) (hne : whereChunks i ≠ []) :
    CondOk (joinSep " AND " ((whereChunks i).map Prod.fst))
      (((whereChunks i).map Prod.snd).flatten.map Prod.fst) := by
  intro r hr
  have hmap : ((whereChunks i).map Prod.snd).flatten.map Prod.fst =
      ((whereChunks i).map (fun p => p.2.map Prod.fst)).flatten := by
    rw [List.map_flatten, List.map_map]
    rfl
  rw [hmap]
  have hok : ∀ p ∈ (whereChunks i).map (fun p => (p.1, p.2.map Prod.fst)),
      CondOk p.1 p.2 := by
    intro p hp
    obtain ⟨q, hq, hpq⟩ := List.mem_map.mp hp
    rw [← hpq]
    exact whereChunks_condOk i q hq
  have := condOk_joinAnd ((whereChunks i).map (fun p => (p.1, p.2.map Prod.fst)))
    (by simp [hne]) hok r hr
  rw [List.map_map, List.map_map] at this
  exact this

/-- The `WHERE `-stripped clause used by the comparison template extracts
exactly the parameter names of its WHERE builder. -/
theorem stripWhere_condOk (i : ParsedIntent) :
    CondOk (replaceAll (buildWhereClause i).1 "WHERE " "")
      ((buildWhereClause i).2.map Prod.fst) := by
  unfold buildWhereClause
  by_cases hemp : (whereChunks i).isEmpty
  · rw [List.isEmpty_iff.mp hemp]
    intro r _
    rfl
  · have hne : whereChunks i ≠ [] := by
      intro h0
      rw [h0] at hemp
      exact hemp rfl
    simp only [hemp, Bool.false_eq_true, if_false]
    have hnoW : subList "WHERE ".data
        (joinSep " AND " ((whereChunks i).map Prod.fst)).data = false := by
      apply noSub_of_head_notMem
      intro hW
      rcases joinSep_chars _ _ _ hW with h | ⟨t, ht, hct⟩
      · exact absurd h (by decide)
      · obtain ⟨q, hq, hqt⟩ := List.mem_map.mp ht
        rw [← hqt] at hct
        exact whereChunks_noW i q hq hct
    rw [replaceAll_where _ hnoW]
    exact whereJoin_condOk i hne

/-- The spending-by-category query's placeholders are exactly its
parameter names. -/
theorem extract_byCategory (table : String) (i : ParsedIntent)
    (htable : ∀ c ∈ table.data, ¬ c = ':') :
    extractPlaceholders (planSpendingByCategory table i).1 =
      (planSpendingByCategory table i).2.map Prod.fst := by
  show extractL _ = _
  unfold planSpendingByCategory
  have hdata : (("\n                SELECT \n                    category,\n                    SUM(amount) as total_amount\n                FROM " ++
      table ++ "\n                " ++ (buildWhereClause i).1 ++
      "\n                GROUP BY category\n                ORDER BY total_amount DESC\n                " ++
      ("LIMIT " ++ (match i.limit with | some n => intRepr n | none => "None")) ++
      "\n            ").data) =
      "\n                SELECT \n                    category,\n                    SUM(amount) as total_amount\n                FROM ".data ++
      (table.data ++
      ("\n                ".data ++
      ((buildWhereClause i).1.data ++
      ("\n                GROUP BY category\n                ORDER BY total_amount DESC\n                ".data ++
      ("LIMIT ".data ++
      ((match i.limit with | some n => intRepr n | none => "None").data ++
      "\n            ".data)))))) := by
    simp [strData_append, List.append_assoc]
  rw [hdata,
    extract_skip _ _ (by decide),
    extract_skip _ _ htable,
    extract_skip _ _ (by decide),
    buildWhereClause_condOk i _ (goodFollow_strData _ _ (by decide) (by decide)),
    extract_skip _ _ (by decide),
    extract_skip _ _ (by decide),
    extract_skip _ _ (limitStr_colonFree i.limit),
    extractL_colonFree _ (by decide), List.append_nil]

/-- The top-items query's placeholders are exactly its parameter names. -/
theorem extract_topItems (table : String) (i : ParsedIntent)
    (htable : ∀ c ∈ table.data, ¬ c = ':')
    (hdim : ∀ d ∈ i.dimensions, ∀ c ∈ d.data, ¬ c = ':') :
    ∀ q ps, planTopItems table i = Except.ok (q, ps) →
      extractPlaceholders q = ps.map Prod.fst := by
  intro q ps h
  unfold planTopItems at h
  rcases hdims : i.dimensions with _ | ⟨dim, rest⟩
  · rw [hdims] at h
    exact absurd h (by simp)
  · rw [hdims] at h
    simp only [Except.ok.injEq, Prod.mk.injEq] at h
    obtain ⟨hq, hps⟩ := h
    subst hq
    subst hps
    have hd : ∀ c ∈ dim.data, ¬ c = ':' :=
      hdim dim (by rw [hdims]; exact List.mem_cons_self _ _)
    show extractL _ = _
    have hdata : (("\n                SELECT \n                    " ++ dim ++
        ",\n                    SUM(amount) as total_amount\n                FROM " ++
        table ++ "\n                " ++ (buildWhereClause i).1 ++
        "\n                GROUP BY " ++ dim ++
        "\n                ORDER BY total_amount DESC\n                LIMIT " ++
        (match i.limit with | some n => intRepr n | none => "None") ++
        "\n            ").data) =
        "\n                SELECT \n                    ".data ++
        (dim.data ++
        (",\n                    SUM(amount) as total_amount\n                FROM ".data ++
        (table.data ++
        ("\n                ".data ++
        ((buildWhereClause i).1.data ++
        ("\n                GROUP BY ".data ++
        (dim.data ++
        ("\n                ORDER BY total_amount DESC\n                LIMIT ".data ++
        ((match i.limit with | some n => intRepr n | none => "None").data ++
        "\n            ".data))))))))) := by
      simp [strData_append, List.append_assoc]
    rw [hdata,
      extract_skip _ _ (by decide),
      extract_skip _ _ hd,
      extract_skip _ _ (by decide),
      extract_skip _ _ htable,
      extract_skip _ _ (by decide),
      buildWhereClause_condOk i _ (goodFollow_strData _ _ (by decide) (by decide)),
      extract_skip _ _ (by decide),
      extract_skip _ _ hd,
      extract_skip _ _ (by decide),
      extract_skip _ _ (limitStr_colonFree i.limit),
      extractL_colonFree _ (by decide), List.append_nil]

/-- The category parameter names, normalized over the index range. -/
theorem enumNames (cats : List String) :
    (cats.enum.map (fun kc => ("category_" ++ natRepr kc.1, PVal.pstr kc.2))).map
      Prod.fst =
    (List.range cats.length).map (fun k => "category_" ++ natRepr k) := by
  rw [List.map_map, ← List.enum_map_fst cats, List.map_map]
  rfl

/-- Chunk texts and parameter names depend only on the intent's filter
shape, not on the filter values. -/
theorem whereChunks_pairs_shape (i j : ParsedIntent)
    (h1 : i.timeRange.1.isSome = j.timeRange.1.isSome)
    (h2 : i.timeRange.2.isSome = j.timeRange.2.isSome)
    (h3 : i.filtersCategory.map List.length = j.filtersCategory.map List.length)
    (h4 : i.filtersMin.isSome = j.filtersMin.isSome)
    (h5 : i.filtersMax.isSome = j.filtersMax.isSome) :
    (whereChunks i).map (fun p => (p.1, p.2.map Prod.fst)) =
    (whereChunks j).map (fun p => (p.1, p.2.map Prod.fst)) := by
  unfold whereChunks
  repeat rw [List.map_append]
  congr 1
  rotate_left
  · rcases hi : i.filtersMax with _ | v <;> rcases hj : j.filtersMax with _ | w <;>
      rw [hi, hj] at h5 <;> simp at h5 ⊢
  congr 1
  rotate_left
  · rcases hi : i.filtersMin with _ | v <;> rcases hj : j.filtersMin with _ | w <;>
      rw [hi, hj] at h4 <;> simp at h4 ⊢
  congr 1
  rotate_left
  · rcases hi : i.filtersCategory with _ | ci <;> rcases hj : j.filtersCategory with _ | cj
    · rfl
    · rw [hi, hj] at h3
      exact absurd h3 (by simp)
    · rw [hi, hj] at h3
      exact absurd h3 (by simp)
    · rw [hi, hj] at h3
      have hlen : ci.length = cj.length := by simpa using h3
      have hemp : ci.isEmpty = cj.isEmpty := by
        cases ci <;> cases cj <;> simp_all
      have hred : ∀ (cats : List String),
          (match some cats with
           | some cats2 => if cats2.isEmpty = true then []
             else [("category IN (" ++ categoryPlaceholders cats2.length ++ ")",
               cats2.enum.map (fun kc => ("category_" ++ natRepr kc.1, PVal.pstr kc.2)))]
           | none => ([] : List (String × List (String × PVal)))) =
          (if cats.isEmpty = true then []
             else [("category IN (" ++ categoryPlaceholders cats.length ++ ")",
               cats.enum.map (fun kc => ("category_" ++ natRepr kc.1, PVal.pstr kc.2)))]) :=
        fun _ => rfl
      rw [hred ci, hred cj]
      by_cases he : ci.isEmpty = true
      · rw [if_pos he, if_pos (hemp ▸ he)]
      · rw [if_neg he, if_neg (hemp ▸ he)]
        simp only [List.map_cons, List.map_nil]
        rw [enumNames, enumNames, hlen]
  congr 1
  · rcases hi : i.timeRange.1 with _ | d <;> rcases hj : j.timeRange.1 with _ | e <;>
      rw [hi, hj] at h1 <;> simp at h1 ⊢
  · rcases hi : i.timeRange.2 with _ | d <;> rcases hj : j.timeRange.2 with _ | e <;>
      rw [hi, hj] at h2 <;> simp at h2 ⊢

/-- The WHERE-clause text depends only on the filter shape. -/
theorem whereText_shape (i j : ParsedIntent)
    (h1 : i.timeRange.1.isSome = j.timeRange.1.isSome)
    (h2 : i.timeRange.2.isSome = j.timeRange.2.isSome)
    (h3 : i.filtersCategory.map List.length = j.filtersCategory.map List.length)
    (h4 : i.filtersMin.isSome = j.filtersMin.isSome)
    (h5 : i.filtersMax.isSome = j.filtersMax.isSome) :
    (buildWhereClause i).1 = (buildWhereClause j).1 := by
  have hp := whereChunks_pairs_shape i j h1 h2 h3 h4 h5
  have htexts : (whereChunks i).map Prod.fst = (whereChunks j).map Prod.fst := by
    have := congrArg (List.map Prod.fst) hp
    rw [List.map_map, List.map_map] at this
    exact this
  have hlen : (whereChunks i).length = (whereChunks j).length := by
    have := congrArg List.length hp
    simpa using this
  have hemp : (whereChunks i).isEmpty = (whereChunks j).isEmpty := by
    rcases hi : whereChunks i with _ | _ <;> rcases hj : whereChunks j with _ | _ <;>
      rw [hi, hj] at hlen <;> simp_all
  show (if (whereChunks i).isEmpty = true then ""
      else "WHERE " ++ joinSep " AND " ((whereChunks i).map Prod.fst)) =
    (if (whereChunks j).isEmpty = true then ""
      else "WHERE " ++ joinSep " AND " ((whereChunks j).map Prod.fst))
  rw [htexts, hemp]

/-- The WHERE-clause parameter names depend only on the filter shape. -/
theorem whereNames_shape (i j : ParsedIntent)
    (h1 : i.timeRange.1.isSome = j.timeRange.1.isSome)
    (h2 : i.timeRange.2.isSome = j.timeRange.2.isSome)
    (h3 : i.filtersCategory.map List.length = j.filtersCategory.map List.length)
    (h4 : i.filtersMin.isSome = j.filtersMin.isSome)
    (h5 : i.filtersMax.isSome = j.filtersMax.isSome) :
    (buildWhereClause i).2.map Prod.fst = (buildWhereClause j).2.map Prod.fst := by
  have hp := whereChunks_pairs_shape i j h1 h2 h3 h4 h5
  have hnames := congrArg (fun l => (l.map Prod.snd).flatten) hp
  simp only [List.map_map] at hnames
  show ((whereChunks i).map Prod.snd).flatten.map Prod.fst =
    ((whereChunks j).map Prod.snd).flatten.map Prod.fst
  rw [List.map_flatten, List.map_flatten, List.map_map, List.map_map]
  exact hnames

/-- The comparison select expression is colon-free. -/
theorem comparisonExpr_colonFree (i : ParsedIntent) :
    (∀ c ∈ (if i.intentType = some IntentType.spendingByCategory then
        ("category, SUM(amount) as total_amount", "GROUP BY category")
      else
        (getTimeExpression i.timeGranularity ++
          " AS time_period, SUM(amount) as total_amount",
         "GROUP BY time_period")).1.data, ¬ c = ':') ∧
    (∀ c ∈ (if i.intentType = some IntentType.spendingByCategory then
        ("category, SUM(amount) as total_amount", "GROUP BY category")
      else
        (getTimeExpression i.timeGranularity ++
          " AS time_period, SUM(amount) as total_amount",
         "GROUP BY time_period")).2.data, ¬ c = ':') := by
  by_cases hty : i.intentType = some IntentType.spendingByCategory
  · rw [if_pos hty]
    exact ⟨by decide, by decide⟩
  · rw [if_neg hty]
    constructor
    · intro c hc
      have hc2 : c ∈ (getTimeExpression i.timeGranularity).data ++
          " AS time_period, SUM(amount) as total_amount".data := hc
      have hlit : ∀ c2 ∈ " AS time_period, SUM(amount) as total_amount".data,
          ¬ c2 = ':' := by decide
      rcases List.mem_append.mp hc2 with h | h
      · exact getTimeExpression_colonFree i.timeGranularity c h
      · exact hlit c h
    · exact (by decide : ∀ c ∈ "GROUP BY time_period".data, ¬ c = ':')

/-- The comparison query's placeholders all resolve in its merged
parameter mapping (the previous-period clause reuses the current
period's unprefixed names, which the current parameters bind). -/
theorem extract_comparison (table : String) (i : ParsedIntent)
    (htable : ∀ c ∈ table.data, ¬ c = ':') :
    ∀ q ps, planComparison table i = Except.ok (q, ps) →
      ∀ nm ∈ extractPlaceholders q, nm ∈ ps.map Prod.fst := by
  intro q ps h
  unfold planComparison at h
  split at h
  · exact absurd h (by simp)
  · rename_i ps0 pe0 hcp2
    split at h
    · exact absurd h (by simp)
    · rename_i hb
      simp only [Except.ok.injEq, Prod.mk.injEq] at h
      obtain ⟨hq, hps⟩ := h
      subst hq
      subst hps
      have he1 := (comparisonExpr_colonFree i).1
      have he2 := (comparisonExpr_colonFree i).2
      have hext : extractL
          (("\n                WITH current_period AS (\n                    SELECT \n                        " ++
            (if i.intentType = some IntentType.spendingByCategory then
              ("category, SUM(amount) as total_amount", "GROUP BY category")
            else
              (getTimeExpression i.timeGranularity ++
                " AS time_period, SUM(amount) as total_amount",
               "GROUP BY time_period")).1 ++
            " as current_value\n                    FROM " ++ table ++
            "\n                    " ++
            replaceAll (buildWhereClause i).1 "WHERE " "" ++
            "\n                    " ++
            (if i.intentType = some IntentType.spendingByCategory then
              ("category, SUM(amount) as total_amount", "GROUP BY category")
            else
              (getTimeExpression i.timeGranularity ++
                " AS time_period, SUM(amount) as total_amount",
               "GROUP BY time_period")).2 ++
            "\n                ),\n                previous_period AS (\n                    SELECT \n                        " ++
            (if i.intentType = some IntentType.spendingByCategory then
              ("category, SUM(amount) as total_amount", "GROUP BY category")
            else
              (getTimeExpression i.timeGranularity ++
                " AS time_period, SUM(amount) as total_amount",
               "GROUP BY time_period")).1 ++
            " as previous_value\n                    FROM " ++ table ++
            "\n                    " ++
            replaceAll (buildWhereClause { i with timeRange := (ps0, pe0) }).1 "WHERE " "" ++
            "\n                    " ++
            (if i.intentType = some IntentType.spendingByCategory then
              ("category, SUM(amount) as total_amount", "GROUP BY category")
            else
              (getTimeExpression i.timeGranularity ++
                " AS time_period, SUM(amount) as total_amount",
               "GROUP BY time_period")).2 ++
            "\n                )\n                SELECT \n                    current_period.*,\n                    previous_period.previous_value,\n                    (current_period.current_value - previous_period.previous_value) as difference,\n                    (current_period.current_value / NULLIF(previous_period.previous_value, 0) - 1) * 100 as pct_change\n                FROM current_period\n                LEFT JOIN previous_period ON 1=1\n            ").data) =
          ((buildWhereClause i).2.map Prod.fst) ++
          ((buildWhereClause { i with timeRange := (ps0, pe0) }).2.map Prod.fst) := by
        rw [show ∀ (a b c d e f g h2 k l m n o p q2 r2 t : String),
            (a ++ b ++ c ++ d ++ e ++ f ++ g ++ h2 ++ k ++ l ++ m ++ n ++ o ++ p ++ q2 ++ r2 ++ t).data =
            a.data ++ (b.data ++ (c.data ++ (d.data ++ (e.data ++ (f.data ++ (g.data ++ (h2.data ++
              (k.data ++ (l.data ++ (m.data ++ (n.data ++ (o.data ++ (p.data ++ (q2.data ++
              (r2.data ++ t.data))))))))))))))) from by
          intro a b c d e f g h2 k l m n o p q2 r2 t
          simp [strData_append, List.append_assoc]]
        rw [extract_skip _ _ (by decide),
          extract_skip _ _ he1,
          extract_skip _ _ (by decide),
          extract_skip _ _ htable,
          extract_skip _ _ (by decide),
          stripWhere_condOk i _ (goodFollow_strData _ _ (by decide) (by decide)),
          extract_skip _ _ (by decide),
          extract_skip _ _ he2,
          extract_skip _ _ (by decide),
          extract_skip _ _ he1,
          extract_skip _ _ (by decide),
          extract_skip _ _ htable,
          extract_skip _ _ (by decide),
          stripWhere_condOk { i with timeRange := (ps0, pe0) } _
            (goodFollow_strData _ _ (by decide) (by decide)),
          extract_skip _ _ (by decide),
          extract_skip _ _ he2,
          extractL_colonFree _ (by decide), List.append_nil]
      intro nm hnm
      unfold extractPlaceholders at hnm
      rw [hext] at hnm
      rw [List.map_append]
      rcases List.mem_append.mp hnm with h | h
      · exact List.mem_append.mpr (Or.inl h)
      · have hshape : (buildWhereClause { i with timeRange := (ps0, pe0) }).2.map
            Prod.fst = (buildWhereClause i).2.map Prod.fst := by
          apply whereNames_shape
          · show ps0.isSome = i.timeRange.1.isSome
            rcases hp0 : ps0 with _ | x
            · rw [hp0] at hb
              simp at hb
            · rcases ht1 : i.timeRange.1 with _ | y
              · rw [ht1] at hb
                simp at hb
              · rfl
          · show pe0.isSome = i.timeRange.2.isSome
            rcases hp0 : pe0 with _ | x
            · rw [hp0] at hb
              simp at hb
            · rcases ht1 : i.timeRange.2 with _ | y
              · rw [ht1] at hb
                simp at hb
              · rfl
          · rfl
          · rfl
          · rfl
        rw [hshape] at h
        exact List.mem_append.mpr (Or.inl h)

/-- Part 1 of the SQLPlan invariant: every placeholder of a compiled query
is bound by the parameter mapping (for intents whose grouping dimensions
are colon-free identifiers, as the intent extractor produces). -/
theorem planSQL_placeholders (i : ParsedIntent)
    (hdim : ∀ d ∈ i.dimensions, ∀ c ∈ d.data, ¬ c = ':') :
    ∀ q ps, generateSqlPlan i = Except.ok (q, ps) →
      ∀ nm ∈ extractPlaceholders q, nm ∈ ps.map Prod.fst := by
  intro q ps h
  have hex : ∀ c ∈ "expenses".data, ¬ c = ':' := by decide
  unfold generateSqlPlan planSQL at h
  split_ifs at h with hb1 hb2 hb3 hb4
  · simp only [Except.ok.injEq] at h
    have hq := congrArg Prod.fst h
    have hps := congrArg Prod.snd h
    simp only at hq hps
    subst hq
    subst hps
    intro nm hnm
    rw [extract_overTime "expenses" i hex] at hnm
    exact hnm
  · simp only [Except.ok.injEq] at h
    have hq := congrArg Prod.fst h
    have hps := congrArg Prod.snd h
    simp only at hq hps
    subst hq
    subst hps
    intro nm hnm
    rw [extract_byCategory "expenses" i hex] at hnm
    exact hnm
  · intro nm hnm
    rw [extract_topItems "expenses" i hex hdim q ps h] at hnm
    exact hnm
  · exact extract_comparison "expenses" i hex q ps h
  · simp only [Except.ok.injEq] at h
    have hq := congrArg Prod.fst h
    have hps := congrArg Prod.snd h
    simp only at hq hps
    subst hq
    subst hps
    intro nm hnm
    rw [extract_overTime "expenses" i hex] at hnm
    exact hnm

/-- Part 2 of the SQLPlan invariant: the compiled query text (or planning
error) depends only on the intent's shape, never on the user-supplied
filter values. -/
theorem planSQL_text_shape (i j : ParsedIntent) (hs : SameShape i j) :
    (planSQL "expenses" i).map Prod.fst = (planSQL "expenses" j).map Prod.fst := by
  obtain ⟨ht, hg, hd, hl, hc, h1, h2, h3, h4, h5, hcp⟩ := hs
  have hwt := whereText_shape i j h1 h2 h3 h4 h5
  unfold planSQL
  rw [ht, hc]
  by_cases hb1 : j.intentType = some IntentType.spendingOverTime
  · rw [if_pos hb1, if_pos hb1]
    simp only [Except.map, planSpendingOverTime]
    rw [hg, hwt]
  · rw [if_neg hb1, if_neg hb1]
    by_cases hb2 : j.intentType = some IntentType.spendingByCategory
    · rw [if_pos hb2, if_pos hb2]
      simp only [Except.map, planSpendingByCategory]
      rw [hl, hwt]
    · rw [if_neg hb2, if_neg hb2]
      by_cases hb3 : j.intentType = some IntentType.topItems
      · rw [if_pos hb3, if_pos hb3]
        unfold planTopItems
        rw [hd]
        cases hdj : j.dimensions with
        | nil => rfl
        | cons dim rest =>
          simp only [Except.map]
          rw [hl, hwt]
      · rw [if_neg hb3, if_neg hb3]
        by_cases hb4 : j.isComparison
        · rw [if_pos hb4, if_pos hb4]
          unfold planComparison
          rcases hcpi : i.comparisonPeriod with _ | ⟨a, b⟩ <;>
            rcases hcpj : j.comparisonPeriod with _ | ⟨a2, b2⟩
          · rfl
          · rw [hcpi, hcpj] at hcp
            exact absurd hcp (by simp)
          · rw [hcpi, hcpj] at hcp
            exact absurd hcp (by simp)
          · rw [hcpi, hcpj] at hcp
            simp only [Option.map_some', Option.some_inj, Prod.mk.injEq] at hcp
            obtain ⟨hpa, hpb⟩ := hcp
            simp only []
            have e1 : i.timeRange.1.isNone = j.timeRange.1.isNone := by
              cases hx : i.timeRange.1 <;> cases hy : j.timeRange.1 <;>
                rw [hx, hy] at h1 <;> simp_all
            have e2 : i.timeRange.2.isNone = j.timeRange.2.isNone := by
              cases hx : i.timeRange.2 <;> cases hy : j.timeRange.2 <;>
                rw [hx, hy] at h2 <;> simp_all
            have e3 : a.isNone = a2.isNone := by
              cases hx : a <;> cases hy : a2 <;> rw [hx, hy] at hpa <;> simp_all
            have e4 : b.isNone = b2.isNone := by
              cases hx : b <;> cases hy : b2 <;> rw [hx, hy] at hpb <;> simp_all
            rw [e1, e2, e3, e4]
            by_cases hcnd : (j.timeRange.1.isNone || j.timeRange.2.isNone ||
                a2.isNone || b2.isNone) = true
            · rw [if_pos hcnd, if_pos hcnd]
            · rw [if_neg hcnd, if_neg hcnd]
              have hprev : (buildWhereClause
                  { intentType := j.intentType, timeRange := (a, b),
                    timeGranularity := j.timeGranularity, dimensions := i.dimensions,
                    metrics := i.metrics, filtersCategory := i.filtersCategory,
                    filtersMin := i.filtersMin, filtersMax := i.filtersMax,
                    limit := i.limit, isComparison := i.isComparison,
                    comparisonPeriod := some (a, b) }).1 =
                  (buildWhereClause
                  { intentType := j.intentType, timeRange := (a2, b2),
                    timeGranularity := j.timeGranularity, dimensions := j.dimensions,
                    metrics := j.metrics, filtersCategory := j.filtersCategory,
                    filtersMin := j.filtersMin, filtersMax := j.filtersMax,
                    limit := j.limit, isComparison := j.isComparison,
                    comparisonPeriod := some (a2, b2) }).1 := by
                apply whereText_shape
                · exact hpa
                · exact hpb
                · exact h3
                · exact h4
                · exact h5
              simp only [Except.map]
              rw [ht, hg, hwt, hprev]
        · rw [if_neg hb4, if_neg hb4]
          simp only [Except.map, planSpendingOverTime]
          rw [hg, hwt]

/-- C2: for every intent whose grouping dimensions are colon-free
identifiers (the only dimensions the intent extractor produces), the
compiled SQLPlan satisfies both halves of the invariant: (1) every named
placeholder occurring in the query text is a key of the params mapping;
(2) the query text (or the planning error) is determined by the intent's
shape alone, so no user-supplied filter value (time bound, category
string, min/max amount) is ever interpolated into the text — two intents
differing only in those values compile to identical query texts, the
values travelling only through the params mapping. -/
theorem sqlplan_placeholders_and_shape (i : ParsedIntent)
    (hdim : ∀ d ∈ i.dimensions, ∀ c ∈ d.data, ¬ c = ':') :
    (∀ q ps, generateSqlPlan i = Except.ok (q, ps) →
      ∀ nm ∈ extractPlaceholders q, nm ∈ ps.map Prod.fst) ∧
    (∀ j : ParsedIntent, SameShape i j →
      (generateSqlPlan i).map Prod.fst = (generateSqlPlan j).map Prod.fst) :=
  ⟨planSQL_placeholders i hdim, fun j hs => planSQL_text_shape i j hs⟩

/-- The placeholder-and-shape invariant instantiated at the concrete intent
`i2a`: its dimensions are colon-free, the placeholder `time_start` of its
compiled query is bound in its params, and the value-varied intent `i2b`
of the same shape compiles to the identical query text. -/
theorem sqlplan_placeholders_and_shape_witness :
    ("time_start" ∈ ps2a.map Prod.fst) ∧
    (generateSqlPlan i2a).map Prod.fst = (generateSqlPlan i2b).map Prod.fst :=
  ⟨(sqlplan_placeholders_and_shape i2a
      (fun d hd => absurd hd (List.not_mem_nil d))).1 q2a ps2a rfl
      "time_start" (by decide),
   (sqlplan_placeholders_and_shape i2a
      (fun d hd => absurd hd (List.not_mem_nil d))).2 i2b
      ⟨rfl, rfl, rfl, rfl, rfl, rfl, rfl, rfl, rfl, rfl, rfl⟩⟩

end C2Theorems
